import Mathlib

/-!
Verification of the `clients-md-generator` repository: a shallow embedding of the
Markdown document generator (`markdown.go`, `config.go`, `models.go`, `utils.go`,
and the download-renderer registry file) together with theorems settling the
frozen claims about it.

Conventions of the embedding:
* Go strings become Lean `String`; character-level reasoning goes through
  `String.data : String → List Char`.
* Go `panic` and returned `error`s both become `Except String _`.
* Go pointer fields used as tri-state booleans (`*bool`) become `Option Bool`.
* The Go code mutates `Client` values through shared pointers; the embedding
  threads an explicit store (`List Client`) indexed by position and returns the
  updated store next to the produced text.
-/

/-! ## String helpers modelling the Go standard library -/

/-- Models `strings.ToLower` (exact on ASCII, which is all the generator relies on). -/
def goToLower (s : String) : String := ⟨s.data.map Char.toLower⟩

/-- Models `strings.TrimSpace`: drop leading and trailing whitespace. -/
def goTrimSpace (s : String) : String :=
  ⟨((s.data.dropWhile Char.isWhitespace).reverse.dropWhile Char.isWhitespace).reverse⟩

/-- Models `strings.HasPrefix`. -/
def goHasPrefix (s pre : String) : Bool := pre.data.isPrefixOf s.data

/-- Models `strings.ReplaceAll(s, "\n", "")`: replacing a single-character pattern
by the empty string removes every occurrence of that character. -/
def removeNewlines (s : String) : String := ⟨s.data.filter (fun ch => ch ≠ '\n')⟩

/-- Go map / association-list lookup. -/
def lookupAssoc {α : Type} : List (String × α) → String → Option α
  | [], _ => none
  | (k, v) :: rest, key => if k = key then some v else lookupAssoc rest key

/-! ## `utils.go`: generic helpers -/

/-- `Select` from `utils.go`: returns `whenTrue` if `expr` is true, otherwise `whenFalse`. -/
def Select {α : Type} (expr : Bool) (whenTrue whenFalse : α) : α :=
  if expr then whenTrue else whenFalse

/-- `DerefDef` from `utils.go`: dereference an optional value with a default. -/
def DerefDef {α : Type} (what : Option α) (defaultValue : α) : α :=
  match what with
  | some v => v
  | none => defaultValue

/-- `Deref` from `utils.go`: dereference an optional value, zero value if nil
(the generator only uses it at type `bool`, whose Go zero value is `false`). -/
def Deref (what : Option Bool) : Bool :=
  match what with
  | some v => v
  | none => false

/-! ## `utils.go`: the document model nodes used by the download renderers -/

/-- `Text` from `utils.go`: markdown text with optional formatting flags.
The Go struct embeds an anonymous `string`; it is named `content` here. -/
structure Text where
  content : String
  bold : Bool := false
  italic : Bool := false
  strikethrough : Bool := false
deriving Repr, DecidableEq

/-- `Text.Render` from `utils.go`: builds `outer` by appending `**`, `*`, `~~`
for the set flags (in that order) and returns `outer + content + outer`. -/
def Text.render (t : Text) : String :=
  let outer := ""
  let outer := if t.bold then outer ++ "**" else outer
  let outer := if t.italic then outer ++ "*" else outer
  let outer := if t.strikethrough then outer ++ "~~" else outer
  outer ++ t.content ++ outer

/-- `NewText` from `utils.go` with no options applied. -/
def NewText (s : String) : Text := { content := s }

/-- The marker string the claim about `Text.Render` speaks of: the concatenation
of `**`, `*`, `~~` for the set flags, in the order bold, italic, strikethrough. -/
def textMarkers (t : Text) : String :=
  (if t.bold then "**" else "") ++ (if t.italic then "*" else "") ++
    (if t.strikethrough then "~~" else "")

/-! ## `net/url` escaping, as used by the download renderers

Go's `url.PathEscape` / `url.QueryEscape` operate on the UTF-8 bytes of the
string; unreserved bytes pass through, others become `%XX` with upper-case hex
(space becomes `+` in query mode). -/

/-- UTF-8 byte encoding of a character (RFC 3629), bytes as `Nat`. -/
def utf8Bytes (c : Char) : List Nat :=
  let n := c.toNat
  if n < 0x80 then [n]
  else if n < 0x800 then [0xC0 + n / 64, 0x80 + n % 64]
  else if n < 0x10000 then [0xE0 + n / 4096, 0x80 + (n / 64) % 64, 0x80 + n % 64]
  else [0xF0 + n / 262144, 0x80 + (n / 4096) % 64, 0x80 + (n / 64) % 64, 0x80 + n % 64]

/-- Upper-case hex digit, as in Go's `upperhex` table. -/
def upperHexDigit (n : Nat) : Char :=
  ("0123456789ABCDEF".data.getD n '0')

/-- Go `net/url` `shouldEscape` restricted to the two modes the generator uses:
`encodePathSegment` (`query = false`) and `encodeQueryComponent` (`query = true`). -/
def shouldEscapeByte (b : Nat) (query : Bool) : Bool :=
  if (97 ≤ b ∧ b ≤ 122) ∨ (65 ≤ b ∧ b ≤ 90) ∨ (48 ≤ b ∧ b ≤ 57) then false
  else if b = 45 ∨ b = 95 ∨ b = 46 ∨ b = 126 then false  -- - _ . ~
  else if b = 36 ∨ b = 38 ∨ b = 43 ∨ b = 44 ∨ b = 47 ∨ b = 58 ∨ b = 59 ∨ b = 61 ∨
      b = 63 ∨ b = 64 then  -- $ & + , / : ; = ? @
    if query then true
    else b = 47 ∨ b = 59 ∨ b = 44 ∨ b = 63  -- / ; , ?
  else true

/-- Go `net/url` `escape` over the UTF-8 bytes of `s`. -/
def goURLEscape (s : String) (query : Bool) : String :=
  String.join ((s.data.flatMap utf8Bytes).map (fun b =>
    if query ∧ b = 32 then "+"
    else if shouldEscapeByte b query then
      ⟨['%', upperHexDigit (b / 16), upperHexDigit (b % 16)]⟩
    else ⟨[Char.ofNat b]⟩))

/-- `url.PathEscape`. -/
def pathEscape (s : String) : String := goURLEscape s false

/-- `url.QueryEscape`. -/
def queryEscape (s : String) : String := goURLEscape s true

/-! ## The markdown nodes produced by download renderers (`utils.go`)

The download renderers only produce `Link`, `Image` and `Text` nodes; this
inductive closes that family so a rendered node is a first-class value. -/

/-- The `MarkdownRenderer` values built by the download renderers. -/
inductive MD where
  | text (t : Text)
  | image (altText : MD) (imageURL : String)
  | link (linkText : MD) (url : String)
deriving Repr, DecidableEq

/-- `Render` of `Link` / `Image` / `Text` from `utils.go`. -/
def MD.render : MD → String
  | .text t => t.render
  | .image alt u => "![" ++ alt.render ++ "](" ++ u ++ ")"
  | .link t u => "[" ++ t.render ++ "](" ++ u ++ ")"

/-! ## The download-renderer registry file -/

/-- `isEmpty`/`preconditions` from the downloads file: each listed value must be
non-empty, otherwise the run panics with `<key> is required for <name> download`.
(Go iterates the map in unspecified order; the embedding checks in the listed
order — which check fires first is the only difference.) -/
def preconditions (name : String) : List (String × String) → Except String Unit
  | [] => .ok ()
  | (k, v) :: rest =>
      if v = "" then .error (k ++ " is required for " ++ name ++ " download")
      else preconditions name rest

/-- `first` from the downloads file: the first non-empty candidate, else the last
candidate (the Go variadic is never called with zero arguments). -/
def first : List String → String
  | [] => ""
  | [v] => v
  | v :: rest => if v ≠ "" then v else first rest

/-- `GitHubDownload`. -/
structure GitHubDownload where
  owner : String := ""
  repo : String := ""
  url : String := ""
  label : String := ""
deriving Repr, DecidableEq

/-- `GitHubDownload.Render`. -/
def GitHubDownload.render (g : GitHubDownload) : Except String MD :=
  match preconditions "GitHub" [("Owner", g.owner), ("Repo", g.repo)] with
  | .error e => .error e
  | .ok _ =>
    let u := first [g.url, "https://github.com/" ++ g.owner ++ "/" ++ g.repo ++ "/releases"]
    let label := if g.label ≠ "" then g.label else "GitHub"
    .ok (.link
      (.image (.text (NewText "github"))
        ("https://img.shields.io/github/downloads/" ++ pathEscape g.owner ++ "/" ++
          pathEscape g.repo ++ "/total?logo=github&label=" ++ queryEscape label))
      u)

/-- `IconDownload`. -/
structure IconDownload where
  icon : String := ""
  url : String := ""
deriving Repr, DecidableEq

/-- `IconDownload.Render`. -/
def IconDownload.render (i : IconDownload) : Except String MD :=
  match preconditions "Icon" [("Icon", i.icon), ("URL", i.url)] with
  | .error e => .error e
  | .ok _ =>
    .ok (.link
      (.image (.text (NewText i.icon))
        ("assets/clients/icons/" ++ pathEscape i.icon ++ ".png"))
      i.url)

/-- `TextDownload`. -/
structure TextDownload where
  text : String := ""
  url : String := ""
deriving Repr, DecidableEq

/-- `TextDownload.Render`. -/
def TextDownload.render (t : TextDownload) : Except String MD :=
  match preconditions "Text" [("Text", t.text), ("URL", t.url)] with
  | .error e => .error e
  | .ok _ => .ok (.link (.text (NewText t.text)) t.url)

/-- `FlathubDownload`. -/
structure FlathubDownload where
  packageId : String := ""   -- `Package` in Go; `package` is not a legal Lean name
  url : String := ""
deriving Repr, DecidableEq

/-- `FlathubDownload.Render`. -/
def FlathubDownload.render (f : FlathubDownload) : Except String MD :=
  match preconditions "Flathub" [("Package", f.packageId)] with
  | .error e => .error e
  | .ok _ =>
    let u := first [f.url, "https://flathub.org/apps/" ++ f.packageId]
    .ok (.link
      (.image (.text (NewText "flathub"))
        ("https://img.shields.io/flathub/downloads/" ++ pathEscape f.packageId ++
          "?logo=Flathub&label=Flathub"))
      u)

/-- `DockerDownload`. -/
structure DockerDownload where
  user : String := ""
  repo : String := ""
  url : String := ""
deriving Repr, DecidableEq

/-- `DockerDownload.Render`. -/
def DockerDownload.render (d : DockerDownload) : Except String MD :=
  match preconditions "Docker" [("User", d.user), ("Repo", d.repo)] with
  | .error e => .error e
  | .ok _ =>
    let u := first [d.url, "https://hub.docker.com/r/" ++ d.user ++ "/" ++ d.repo]
    .ok (.link
      (.image (.text (NewText "docker"))
        ("https://img.shields.io/docker/pulls/" ++ pathEscape d.user ++ "/" ++
          pathEscape d.repo ++ "?logo=docker&label=Docker"))
      u)

/-- `CustomShieldDownload` (`Content` is a nil-able pointer in Go). -/
structure CustomShieldDownload where
  label : String := ""
  content : Option String := none
  icon : String := ""
  color : String := ""
  url : String := ""
deriving Repr, DecidableEq

/-- `CustomShieldDownload.Render`. -/
def CustomShieldDownload.render (c : CustomShieldDownload) : Except String MD :=
  match preconditions "CustomShield" [("URL", c.url)] with
  | .error e => .error e
  | .ok _ =>
    let color := first [c.color, "grey"]
    let alt := first [c.label, c.icon, "alt"]
    let content := match c.content with
      | some s => s
      | none => if c.icon ≠ "" then c.icon else ""
    .ok (.link
      (.image (.text (NewText alt))
        ("https://img.shields.io/badge/" ++ pathEscape content ++ "-" ++ color ++
          "?logo=" ++ queryEscape c.icon ++ "&label=" ++ queryEscape c.label))
      c.url)

/-- `GitLabDownload`. -/
structure GitLabDownload where
  owner : String := ""
  repo : String := ""
  url : String := ""
deriving Repr, DecidableEq

/-- `GitLabDownload.Render`: computes a default URL and delegates to
`CustomShieldDownload.render` with icon `GitLab`; note it performs no
`preconditions` check of its own. -/
def GitLabDownload.render (g : GitLabDownload) : Except String MD :=
  let u := first [g.url,
    "https://gitlab.com/" ++ pathEscape g.owner ++ "/" ++ pathEscape g.repo]
  CustomShieldDownload.render { icon := "GitLab", url := u }

/-- `DemoDownload`. -/
structure DemoDownload where
  url : String := ""
deriving Repr, DecidableEq

/-- `DemoDownload.Render`. -/
def DemoDownload.render (d : DemoDownload) : Except String MD :=
  CustomShieldDownload.render
    { label := "Demo", content := some "Web", color := "blue", url := d.url }

/-- `AppStoreDownload`. -/
structure AppStoreDownload where
  id : String := ""
  url : String := ""
deriving Repr, DecidableEq

/-- `AppStoreDownload.Render`. -/
def AppStoreDownload.render (a : AppStoreDownload) : Except String MD :=
  let u := first [a.url, "https://apps.apple.com/app/id" ++ a.id]
  CustomShieldDownload.render { icon := "App Store", url := u }

/-- `GooglePlayDownload`. -/
structure GooglePlayDownload where
  id : String := ""
  url : String := ""
deriving Repr, DecidableEq

/-- `GooglePlayDownload.Render`. -/
def GooglePlayDownload.render (g : GooglePlayDownload) : Except String MD :=
  let u := first [g.url, "https://play.google.com/store/apps/details?id=" ++ g.id]
  CustomShieldDownload.render { icon := "Google Play", url := u }

/-- The tagged union of download kinds (`Download` interface + its implementors). -/
inductive Download where
  | icon (d : IconDownload)
  | text (d : TextDownload)
  | github (d : GitHubDownload)
  | flathub (d : FlathubDownload)
  | docker (d : DockerDownload)
  | shield (d : CustomShieldDownload)
  | gitlab (d : GitLabDownload)
  | demo (d : DemoDownload)
  | appStore (d : AppStoreDownload)
  | googlePlay (d : GooglePlayDownload)
deriving Repr, DecidableEq

/-- Dynamic dispatch of `Download.Render`. -/
def Download.render : Download → Except String MD
  | .icon d => d.render
  | .text d => d.render
  | .github d => d.render
  | .flathub d => d.render
  | .docker d => d.render
  | .shield d => d.render
  | .gitlab d => d.render
  | .demo d => d.render
  | .appStore d => d.render
  | .googlePlay d => d.render

/-! ## Decoding download lists (`Downloads.UnmarshalYAML` and `downloadFactories`) -/

/-- A raw download item as decoded from YAML: the optional `type` discriminant
plus the remaining scalar fields (string-valued in this embedding; the nil-able
`content` pointer is modelled by field absence). -/
structure RawDownloadItem where
  typeField : Option String
  fields : List (String × String)
deriving Repr, DecidableEq

/-- Raw field access with Go's zero value for missing keys. -/
def rawField (fs : List (String × String)) (k : String) : String :=
  match lookupAssoc fs k with
  | some v => v
  | none => ""

/-- The `downloadFactories` registry combined with the per-item YAML re-decode
(`yaml.Marshal` of the raw map, then `yaml.Unmarshal` into the concrete struct):
produce the concrete download, or `none` for an unregistered discriminant. -/
def downloadFactory (rawType : String) (fs : List (String × String)) : Option Download :=
  if rawType = "icon" then
    some (.icon { icon := rawField fs "icon", url := rawField fs "url" })
  else if rawType = "text" then
    some (.text { text := rawField fs "text", url := rawField fs "url" })
  else if rawType = "github" then
    some (.github { owner := rawField fs "owner", repo := rawField fs "repo", url := rawField fs "url", label := rawField fs "label" })
  else if rawType = "flathub" then
    some (.flathub { packageId := rawField fs "package", url := rawField fs "url" })
  else if rawType = "docker" then
    some (.docker { user := rawField fs "user", repo := rawField fs "repo", url := rawField fs "url" })
  else if rawType = "shield" then
    some (.shield { label := rawField fs "label", content := lookupAssoc fs "content", icon := rawField fs "icon", color := rawField fs "color", url := rawField fs "url" })
  else if rawType = "gitlab" then
    some (.gitlab { owner := rawField fs "owner", repo := rawField fs "repo", url := rawField fs "url" })
  else if rawType = "demo" then
    some (.demo { url := rawField fs "url" })
  else if rawType = "app-store" then
    some (.appStore { id := rawField fs "id", url := rawField fs "url" })
  else if rawType = "google-play" then
    some (.googlePlay { id := rawField fs "id", url := rawField fs "url" })
  else none

/-- The ten registered discriminants: the domain of `downloadFactories`. -/
def registeredKinds : List String :=
  ["icon", "text", "github", "flathub", "docker", "shield", "gitlab", "demo",
    "app-store", "google-play"]

/-- `Downloads.UnmarshalYAML`: decode raw items left to right; a missing or
unregistered discriminant aborts the whole decode with
`unknown download type: <t>`. -/
def decodeDownloads : List RawDownloadItem → Except String (List Download)
  | [] => .ok []
  | item :: rest =>
    let rawType := item.typeField.getD ""
    match downloadFactory rawType item.fields with
    | none => .error ("unknown download type: " ++ rawType)
    | some d =>
      match decodeDownloads rest with
      | .error e => .error e
      | .ok ds => .ok (d :: ds)

/-- A client as far as download decoding is concerned. -/
structure RawClient where
  rawDownloads : List RawDownloadItem
deriving Repr, DecidableEq

/-- The download-bearing part of the YAML configuration. -/
structure RawClientsConfig where
  clients : List RawClient
deriving Repr, DecidableEq

/-- Config decoding: every client's download list decodes, or the whole load fails. -/
def decodeConfigDownloads : List RawClient → Except String (List (List Download))
  | [] => .ok []
  | rc :: rest =>
    match decodeDownloads rc.rawDownloads with
    | .error e => .error e
    | .ok ds =>
      match decodeConfigDownloads rest with
      | .error e => .error e
      | .ok rs => .ok (ds :: rs)

/-- Modelled from the spec: the snapshot under src/ wires the table assembler to
the older `Hoster`-based download lists, so the document body consuming decoded
`Download` values is declared but not assembled under src/; per the spec the
Downloads cell is each download's rendered node joined horizontally by single
spaces, and the document is their vertical concatenation. The per-download
rendering used here is the source's `Render` dispatch. -/
def renderDownloadsDoc : List (List Download) → Except String String
  | [] => .ok ""
  | ds :: rest =>
    match renderDownloadsCell ds with
    | .error e => .error e
    | .ok cell =>
      match renderDownloadsDoc rest with
      | .error e => .error e
      | .ok out => .ok (cell ++ "\n" ++ out)
where
  renderDownloadsCell : List Download → Except String String
    | [] => .ok ""
    | d :: rest =>
      match d.render with
      | .error e => .error e
      | .ok m =>
        match renderDownloadsCell rest with
        | .error e => .error e
        | .ok out => .ok (m.render ++ (if out = "" then "" else " ") ++ out)

/-- The `main` pipeline ordering: the configuration (including each download
list) is fully decoded before document generation starts, so a decode error
yields no output text at all. -/
def runDownloadsPipeline (raw : RawClientsConfig) : Except String String :=
  match decodeConfigDownloads raw.clients with
  | .error e => .error e
  | .ok dss => renderDownloadsDoc dss

/-! ## `models.go` / `config.go`: the configuration data model -/

/-- `Price`: tri-state free/paid flags (`*bool` in Go). -/
structure Price where
  free : Option Bool := none
  paid : Option Bool := none
deriving Repr, DecidableEq, Inhabited

/-- `Hoster`: per-download hosting details of the snapshot's client model. -/
structure Hoster where
  icon : String := ""
  iconURL : String := ""
  text : String := ""
  url : String := ""
deriving Repr, DecidableEq, Inhabited

/-- `Client`. -/
structure Client where
  name : String := ""
  targets : List String := []
  official : Option Bool := none
  beta : Option Bool := none
  website : String := ""
  openSourceURL : String := ""
  price : Price := {}
  downloads : List Hoster := []
  types : List String := []
deriving Repr, DecidableEq, Inhabited

/-- `Target`: a platform identifier with its display name. -/
structure Target where
  name : String := ""
  mapped : String := ""
deriving Repr, DecidableEq, Inhabited

/-- `TargetGroup`. -/
structure TargetGroup where
  key : String := ""
  display : String := ""
  has : List Target := []
deriving Repr, DecidableEq, Inhabited

/-- `HosterIcon`. -/
structure HosterIcon where
  light : String := ""
  dark : String := ""
  single : String := ""
  text : String := ""
deriving Repr, DecidableEq, Inhabited

/-- `ClientType` (`Section` in Go is named `isSection`: `section` is a Lean keyword). -/
structure ClientType where
  key : String := ""
  badge : String := ""
  display : String := ""
  isSection : Bool := false
deriving Repr, DecidableEq, Inhabited

/-- `ClientsConfig` (the Go `Icons` map becomes an association list). -/
structure ClientsConfig where
  clients : List Client := []
  targets : List TargetGroup := []
  icons : List (String × HosterIcon) := []
  types : List ClientType := []
deriving Repr, DecidableEq, Inhabited

/-- Constants from `config.go` / `markdown.go`. -/
def GoodTrue : String := "✅"

/-- `BadTrue` from `config.go`. -/
def BadTrue : String := "☑️"

/-- `GoodFalse` from `config.go`. -/
def GoodFalse : String := "❎"

/-- `BadFalse` from `config.go`. -/
def BadFalse : String := "❌"

/-- `JellyfinOrgURL` from `config.go`. -/
def JellyfinOrgURL : String := "https://github.com/jellyfin/"

/-- `OfficialTypeKey` from `markdown.go`. -/
def OfficialTypeKey : String := "Official"

/-- `BetaTypeKey` from `markdown.go`. -/
def BetaTypeKey : String := "Beta"

/-- `ClientType.String`: display name, key as fallback. -/
def ClientType.toDisplayString (t : ClientType) : String :=
  if t.display ≠ "" then t.display else t.key

/-- `ClientType.StringWithBadge`. -/
def ClientType.stringWithBadge (t : ClientType) : String :=
  if t.badge = "" then t.toDisplayString
  else "` " ++ t.badge ++ " ` " ++ t.toDisplayString

/-- `ClientTypes.FindType`: first type with the given key. -/
def FindType : List ClientType → String → Option ClientType
  | [], _ => none
  | ct :: rest, key => if ct.key = key then some ct else FindType rest key

/-! ## `markdown.go`: icon and downloads-cell rendering -/

/-- `HosterIcon.Markdown`: panic if exactly one of dark/light is set; picture
element for dark+light; text link if text set; single-image link otherwise. -/
def HosterIcon.markdown (i : HosterIcon) (url : String) : Except String String :=
  if ((i.dark != "") ≠ (i.light != "")) then
    .error "use 'single' if only a single icon URL is available"
  else if i.dark ≠ "" then
    .ok (goTrimSpace ("<a href=\"" ++ url ++ "\"><picture><source media=\"(prefers-color-scheme: dark)\" srcset=\"" ++ i.dark ++ "\"><source media=\"(prefers-color-scheme: light)\" srcset=\"" ++ i.light ++ "\"><img src=\"" ++ i.dark ++ "\"></picture></a>"))
  else if i.text ≠ "" then .ok ("[" ++ i.text ++ "](" ++ url ++ ")")
  else .ok ("[![img](" ++ i.single ++ ")](" ++ url ++ ")")

/-- The per-hoster else-if chain when the icon lookup missed or the name is empty. -/
def hosterMarkdownNoIcon (hoster : Hoster) : Except String String :=
  if hoster.iconURL ≠ "" then
    HosterIcon.markdown { light := "", dark := "", single := hoster.iconURL, text := "" } hoster.url
  else if hoster.text ≠ "" then
    .ok ("[" ++ hoster.text ++ "](" ++ hoster.url ++ ")")
  else .error "invalid download. specify either icon, icon-url, or text"

/-- One hoster's markdown: configured icon if the lookup hits with a non-empty
name, otherwise icon-url / text / panic. -/
def hosterMarkdown (icons : List (String × HosterIcon)) (hoster : Hoster) :
    Except String String :=
  match lookupAssoc icons hoster.icon with
  | some icon =>
    if hoster.icon ≠ "" then icon.markdown hoster.url
    else hosterMarkdownNoIcon hoster
  | none => hosterMarkdownNoIcon hoster

/-- The string-builder loop of `processClientDownloads`. -/
def processDownloadsAux (icons : List (String × HosterIcon)) :
    List Hoster → String → Except String String
  | [], sb => .ok sb
  | hoster :: rest, sb =>
    let sb1 := if sb.length > 0 then sb ++ " " else sb
    match hosterMarkdown icons hoster with
    | .error e => .error e
    | .ok piece => processDownloadsAux icons rest (sb1 ++ piece)

/-- `processClientDownloads`: render each hoster separated by single spaces, then
strip every newline from the result. -/
def processClientDownloads (client : Client) (icons : List (String × HosterIcon)) :
    Except String String :=
  match processDownloadsAux icons client.downloads "" with
  | .error e => .error e
  | .ok sb => .ok (removeNewlines sb)

/-! ## `markdown.go`: table rows -/

/-- The two defaulting statements at the head of `PrintClientTableRow`: official
defaults to true for unset flags with a Jellyfin-organization open-source URL,
and free defaults to true for unset flags with any open-source URL. These write
through the shared `*Client` pointer, mutating the stored client. -/
def clientDefaults (c : Client) : Client :=
  let c1 := if c.official = none ∧ goHasPrefix c.openSourceURL JellyfinOrgURL then
    { c with official := some true } else c
  if c1.price.free = none ∧ c1.openSourceURL ≠ "" then
    { c1 with price := { c1.price with free := some true } } else c1

/-- `addTypeBadge`: look the key up in the type registry (panic when absent) and
append a non-empty badge. -/
def addTypeBadge (badges : List String) (key : String) (types : List ClientType) :
    Except String (List String) :=
  match FindType types key with
  | none => .error ("cannot find type with key: " ++ key)
  | some t => .ok (if t.badge ≠ "" then badges ++ [t.badge] else badges)

/-- The `for _, t := range client.Types` badge loop. -/
def addTypeBadges (badges : List String) (keys : List String) (types : List ClientType) :
    Except String (List String) :=
  match keys with
  | [] => .ok badges
  | k :: rest =>
    match addTypeBadge badges k types with
    | .error e => .error e
    | .ok b => addTypeBadges b rest types

/-- The badge collection of `PrintClientTableRow`: Official, then Beta, then the
client's declared types. -/
def rowBadges (c : Client) (types : List ClientType) : Except String (List String) :=
  match (if Deref c.official then addTypeBadge [] OfficialTypeKey types else .ok []) with
  | .error e => .error e
  | .ok b1 =>
    match (if Deref c.beta then addTypeBadge b1 BetaTypeKey types else .ok b1) with
    | .error e => .error e
    | .ok b2 => addTypeBadges b2 c.types types

/-- The `name += " ` <badge> `"` loop. -/
def appendBadges (name : String) : List String → String
  | [] => name
  | b :: rest => appendBadges (name ++ " ` " ++ b ++ " `") rest

/-- The body of `PrintClientTableRow` after the defaulting statements: reads the
(already defaulted) client and produces the row line, returning the client it
read so the caller can write it back to the store. -/
def printClientTableRowCore (c : Client) (icons : List (String × HosterIcon))
    (types : List ClientType) : Except String (Client × String) :=
  let oss := Select (c.openSourceURL != "") GoodTrue BadFalse
  let free := Select (DerefDef c.price.free false) GoodTrue BadFalse
  let paid := Select (DerefDef c.price.paid false) BadTrue GoodFalse
  let websiteURL := Select (c.website != "") c.website c.openSourceURL
  match processClientDownloads c icons with
  | .error e => .error e
  | .ok downloadsMarkdown =>
    match rowBadges c types with
    | .error e => .error e
    | .ok badges =>
      let nameCell := appendBadges c.name badges
      .ok (c, "| [" ++ nameCell ++ "](" ++ websiteURL ++ ") | " ++ oss ++ " | " ++
        free ++ " | " ++ paid ++ " | " ++ downloadsMarkdown ++ " |" ++ "\n")

/-- `PrintClientTableRow` (the Go function receives the whole config but reads
only its `Icons` and `Types` fields, which the embedding passes directly):
apply the defaulting mutations, then render. -/
def printClientTableRow (client : Client) (icons : List (String × HosterIcon))
    (types : List ClientType) : Except String (Client × String) :=
  printClientTableRowCore (clientDefaults client) icons types

/-! ## `config.go` / `markdown.go`: the identifier map and tables -/

/-- How many of a client's targets normalize to the given identifier. -/
def matchingTargetCount (c : Client) (key : String) : Nat :=
  (c.targets.filter (fun t => goTrimSpace (goToLower t) == key)).length

/-- The bucket-building loop of `createIdentifierClientMap`, clients indexed from `i`. -/
def createIdentifierClientMapFrom : List Client → Nat → String → List Nat
  | [], _, _ => []
  | c :: rest, i, key =>
    List.replicate (matchingTargetCount c key) i ++
      createIdentifierClientMapFrom rest (i + 1) key

/-- `createIdentifierClientMap`: identifier to the (position-indexed) bucket of
clients declaring it, in client order, once per declaring target. -/
def createIdentifierClientMap (clients : List Client) : String → List Nat :=
  fun key => createIdentifierClientMapFrom clients 0 key

/-- Indexed read from the client store (indices are in range by construction). -/
def storeGet (store : List Client) (i : Nat) : Client := store.getD i default

/-- `PrintTableHeader`'s two lines. -/
def tableHeader : String :=
  "| Name | OSS | Free | Paid | Downloads |\n| ---- | --- | ---- | ---- | --------- |\n"

/-- The row loop of `PrintClientTable`: render each bucket index against the
current store, writing the mutated client back. -/
def renderRows (icons : List (String × HosterIcon)) (types : List ClientType) :
    List Nat → List Client → Except String (List Client × String)
  | [], store => .ok (store, "")
  | i :: rest, store =>
    match printClientTableRow (storeGet store i) icons types with
    | .error e => .error e
    | .ok (c, row) =>
      match renderRows icons types rest (store.set i c) with
      | .error e => .error e
      | .ok (s, out) => .ok (s, row ++ out)

/-- `PrintClientTable`: header plus the rows of the normalized identifier's bucket. -/
def printClientTable (has : String) (identifierClientMap : String → List Nat)
    (icons : List (String × HosterIcon)) (types : List ClientType)
    (store : List Client) : Except String (List Client × String) :=
  match renderRows icons types (identifierClientMap (goToLower (goTrimSpace has))) store with
  | .error e => .error e
  | .ok (s, rows) => .ok (s, tableHeader ++ rows)

/-- The `for _, meta := range target.Has` loop of `CreateMarkdownDocument`. -/
def renderHasList (identifierClientMap : String → List Nat)
    (icons : List (String × HosterIcon)) (types : List ClientType)
    (hasMultipleTargets : Bool) :
    List Target → List Client → Except String (List Client × String)
  | [], store => .ok (store, "")
  | meta :: rest, store =>
    let head := if hasMultipleTargets then "### " ++ meta.mapped ++ "\n\n" else ""
    match printClientTable meta.name identifierClientMap icons types store with
    | .error e => .error e
    | .ok (s1, tbl) =>
      match renderHasList identifierClientMap icons types hasMultipleTargets rest s1 with
      | .error e => .error e
      | .ok (s2, out) => .ok (s2, head ++ tbl ++ "\n" ++ out)

/-- The `for _, target := range config.Targets` loop of `CreateMarkdownDocument`. -/
def renderTargetGroups (identifierClientMap : String → List Nat)
    (icons : List (String × HosterIcon)) (types : List ClientType) :
    List TargetGroup → List Client → Except String (List Client × String)
  | [], store => .ok (store, "")
  | g :: rest, store =>
    match renderHasList identifierClientMap icons types (decide (1 < g.has.length))
        g.has store with
    | .error e => .error e
    | .ok (s1, groupOut) =>
      match renderTargetGroups identifierClientMap icons types rest s1 with
      | .error e => .error e
      | .ok (s2, out) => .ok (s2, "## " ++ g.display ++ "\n\n" ++ groupOut ++ out)

/-- The `for _, clientType := range client.Types` membership check in the
by-type section. -/
def belongsToType (c : Client) (key : String) : Bool :=
  c.types.any (fun t => t == key)

/-- The `for _, client := range config.Clients` loop inside a section type:
renders (and mutates) every stored client that declares the type. -/
def renderTypeClients (icons : List (String × HosterIcon)) (types : List ClientType)
    (ct : ClientType) :
    List Nat → Bool → List Client → Except String (List Client × String)
  | [], _, store => .ok (store, "")
  | i :: rest, printTypeHeader, store =>
    let c := storeGet store i
    if belongsToType c ct.key then
      let head := if printTypeHeader then
        "\n## " ++ ct.stringWithBadge ++ "\n\n" ++ tableHeader else ""
      match printClientTableRow c icons types with
      | .error e => .error e
      | .ok (c1, row) =>
        match renderTypeClients icons types ct rest false (store.set i c1) with
        | .error e => .error e
        | .ok (s, out) => .ok (s, head ++ row ++ out)
    else renderTypeClients icons types ct rest printTypeHeader store

/-- The `for _, customType := range config.Types` section loop: only section
types render; the `\n---\n\n# By Type\n` header is emitted before the first one. -/
def renderTypeSections (icons : List (String × HosterIcon)) (types : List ClientType)
    (idxs : List Nat) :
    List ClientType → Bool → List Client → Except String (List Client × String)
  | [], _, store => .ok (store, "")
  | ct :: rest, printHeader, store =>
    if ct.isSection then
      let head := if printHeader then "\n---\n\n" ++ "# By Type\n" else ""
      match renderTypeClients icons types ct idxs true store with
      | .error e => .error e
      | .ok (s1, clientsOut) =>
        match renderTypeSections icons types idxs rest false s1 with
        | .error e => .error e
        | .ok (s2, out) => .ok (s2, head ++ clientsOut ++ out)
    else renderTypeSections icons types idxs rest printHeader store

/-- The legend loop at the end of `CreateMarkdownDocument`: one bullet per type
with a non-empty badge, in config order. -/
def renderLegend : List ClientType → String
  | [] => ""
  | ct :: rest =>
    (if ct.badge ≠ "" then
      "* " ++ ct.toDisplayString ++ ": ` " ++ ct.badge ++ " `\n" else "") ++
      renderLegend rest

/-- `CreateMarkdownDocument`: build the identifier map once, render the
by-environment section, then (only when types exist) the by-type sections, a
divider and the legend. Returns the final client store next to the text. -/
def createMarkdownDocument (config : ClientsConfig) :
    Except String (List Client × String) :=
  let targetClientsMap := createIdentifierClientMap config.clients
  match renderTargetGroups targetClientsMap config.icons config.types config.targets
      config.clients with
  | .error e => .error e
  | .ok (s1, envOut) =>
    if config.types.isEmpty then .ok (s1, "# By Environment\n" ++ envOut)
    else
      match renderTypeSections config.icons config.types
          (List.range config.clients.length) config.types true s1 with
      | .error e => .error e
      | .ok (s2, typeOut) =>
        .ok (s2, "# By Environment\n" ++ envOut ++ typeOut ++ "\n---\n\n" ++
          renderLegend config.types)

/-- `sub` occurs contiguously inside `s`. -/
def containsSubstring (sub s : String) : Prop :=
  ∃ pre post : List Char, s.data = pre ++ sub.data ++ post

/-- First client of the C1 configuration. -/
def zetaClient : Client := { name := "Zeta", targets := ["x"] }

/-- Second client of the C1 configuration. -/
def appleClient : Client := { name := "apple", targets := ["x"] }

/-- A configuration listing `Zeta` before `apple`, both targeting `x`. -/
def cfgC1 : ClientsConfig :=
  { clients := [zetaClient, appleClient],
    targets := [{ key := "g", display := "G", has := [{ name := "x", mapped := "X" }] }] }

/-- A configuration with one unset-official, Jellyfin-organization client. -/
def cfgC3 : ClientsConfig :=
  { clients := [{ name := "c", targets := ["x"], openSourceURL := "https://github.com/jellyfin/x" }],
    targets := [{ key := "g", display := "G", has := [{ name := "x", mapped := "X" }] }],
    types := [{ key := "Official", badge := "B" }] }

/-- A configuration with a single badged type and nothing else. -/
def cfgC5 : ClientsConfig :=
  { types := [{ key := "music", badge := "M", display := "Music" }] }

/-! ## The mutation algebra behind claims C3 and C4

`PrintClientTableRow` mutates a stored client only by `clientDefaults`, which is
idempotent; the relations and lemmas here track stores across such mutations. -/

/-- `b` is `a`, possibly after the row-defaulting mutation. -/
def clientEvolves (a b : Client) : Prop := b = a ∨ b = clientDefaults a

/-- Pointwise evolution of client stores. -/
def StoreInv : List Client → List Client → Prop
  | [], [] => True
  | a :: as, b :: bs => clientEvolves a b ∧ StoreInv as bs
  | _, _ => False

/-- The client of `cfgC3` after the defaulting mutations. -/
def mutatedC3 : Client :=
  { name := "c", targets := ["x"], official := some true, openSourceURL := "https://github.com/jellyfin/x", price := { free := some true } }

/-- The document text generated from `cfgC3`. -/
def docC3 : String :=
  "# By Environment\n## G\n\n| Name | OSS | Free | Paid | Downloads |\n| ---- | --- | ---- | ---- | --------- |\n| [c ` B `](https://github.com/jellyfin/x) | ✅ | ✅ | ❎ |  |\n\n\n---\n\n* Official: ` B `\n"

/-! # Theorems -/

/-- C2 counterexample: the claim says closing markers mirror the opening markers,
so bold+strikethrough would render `**~~content~~**`; the code appends the same
marker string on both sides and actually renders `**~~content**~~`. -/
theorem C2_mirrored_markers_false :
    Text.render { content := "content", bold := true, strikethrough := true } =
        "**~~content**~~" ∧
      Text.render { content := "content", bold := true, strikethrough := true } ≠
        "**~~content~~**" := by
  constructor
  · rfl
  · decide

/-- C2 (amended): `Text.render` wraps the content between two copies of the same
marker string — the concatenation of `**`/`*`/`~~` for the set flags in the fixed
order bold, italic, strikethrough — so the closing run repeats the opening order
instead of mirroring it (bold+strikethrough yields `**~~content**~~`). -/
theorem C2_text_render_markers (t : Text) :
    Text.render t = textMarkers t ++ t.content ++ textMarkers t := by
  rcases t with ⟨c, b, i, s⟩
  cases b <;> cases i <;> cases s <;>
    simp [Text.render, textMarkers, String.append_assoc]

/-- A string with a non-empty left part stays non-empty under append. -/
theorem append_ne_empty_left (a b : String) (h : a ≠ "") : a ++ b ≠ "" := by
  intro hc
  apply h
  apply String.ext
  have h2 := congrArg String.data hc
  simp [String.data_append] at h2
  rw [h2.1]

/-- `first [a, b]` is non-empty whenever the fallback `b` is. -/
theorem first_pair_ne (a b : String) (hb : b ≠ "") : first [a, b] ≠ "" := by
  by_cases ha : a = ""
  · simp [first, ha, hb]
  · simp [first, ha]

/-- `CustomShieldDownload.render` succeeds whenever the URL is non-empty. -/
theorem customShield_render_ok (c : CustomShieldDownload) (h : c.url ≠ "") :
    ∃ m, c.render = .ok m := by
  have hpre : preconditions "CustomShield" [("URL", c.url)] = .ok () := by
    simp [preconditions, h]
  rw [CustomShieldDownload.render, hpre]
  exact ⟨_, rfl⟩

/-- C7 counterexample: a GitLab download with empty owner and repo does not fail;
it silently renders a shield whose link URL is `https://gitlab.com//`. The claim
says an empty required GitLab owner/repo causes a fatal configuration error. -/
theorem C7_gitlab_empty_fields_render_ok :
    GitLabDownload.render { owner := "", repo := "", url := "" } =
      .ok (.link
        (.image (.text (NewText "GitLab"))
          "https://img.shields.io/badge/GitLab-grey?logo=GitLab&label=")
        "https://gitlab.com//") := by
  rfl

/-- C7 (amended): the Icon, Text, GitHub, Flathub, Docker, CustomShield and Demo
variants fail (when `Render` runs) on an empty required field, but the GitLab,
App Store and Google Play variants perform no required-field check at all: they
always render successfully, embedding the (possibly empty) fields in a computed
non-empty URL. -/
theorem C7_required_field_checks :
    (∀ g : GitHubDownload, g.owner = "" ∨ g.repo = "" → ∃ e, g.render = .error e) ∧
    (∀ i : IconDownload, i.icon = "" ∨ i.url = "" → ∃ e, i.render = .error e) ∧
    (∀ t : TextDownload, t.text = "" ∨ t.url = "" → ∃ e, t.render = .error e) ∧
    (∀ f : FlathubDownload, f.packageId = "" → ∃ e, f.render = .error e) ∧
    (∀ d : DockerDownload, d.user = "" ∨ d.repo = "" → ∃ e, d.render = .error e) ∧
    (∀ c : CustomShieldDownload, c.url = "" → ∃ e, c.render = .error e) ∧
    (∀ d : DemoDownload, d.url = "" → ∃ e, d.render = .error e) ∧
    (∀ g : GitLabDownload, ∃ m, g.render = .ok m) ∧
    (∀ a : AppStoreDownload, ∃ m, a.render = .ok m) ∧
    (∀ g : GooglePlayDownload, ∃ m, g.render = .ok m) := by
  refine ⟨?_, ?_, ?_, ?_, ?_, ?_, ?_, ?_, ?_, ?_⟩
  · intro g h
    by_cases ho : g.owner = ""
    · exact ⟨_, by simp [GitHubDownload.render, preconditions, ho]; rfl⟩
    · rcases h with h | h
      · exact absurd h ho
      · exact ⟨_, by simp [GitHubDownload.render, preconditions, ho, h]; rfl⟩
  · intro i h
    by_cases ho : i.icon = ""
    · exact ⟨_, by simp [IconDownload.render, preconditions, ho]; rfl⟩
    · rcases h with h | h
      · exact absurd h ho
      · exact ⟨_, by simp [IconDownload.render, preconditions, ho, h]; rfl⟩
  · intro t h
    by_cases ho : t.text = ""
    · exact ⟨_, by simp [TextDownload.render, preconditions, ho]; rfl⟩
    · rcases h with h | h
      · exact absurd h ho
      · exact ⟨_, by simp [TextDownload.render, preconditions, ho, h]; rfl⟩
  · intro f h
    exact ⟨_, by simp [FlathubDownload.render, preconditions, h]; rfl⟩
  · intro d h
    by_cases ho : d.user = ""
    · exact ⟨_, by simp [DockerDownload.render, preconditions, ho]; rfl⟩
    · rcases h with h | h
      · exact absurd h ho
      · exact ⟨_, by simp [DockerDownload.render, preconditions, ho, h]; rfl⟩
  · intro c h
    exact ⟨_, by simp [CustomShieldDownload.render, preconditions, h]; rfl⟩
  · intro d h
    exact ⟨_, by simp [DemoDownload.render, CustomShieldDownload.render, preconditions, h]; rfl⟩
  · intro g
    simp only [GitLabDownload.render]
    exact customShield_render_ok _ (first_pair_ne _ _
      (append_ne_empty_left _ _ (append_ne_empty_left _ _
        (append_ne_empty_left _ _ (by decide)))))
  · intro a
    simp only [AppStoreDownload.render]
    exact customShield_render_ok _ (first_pair_ne _ _
      (append_ne_empty_left _ _ (by decide)))
  · intro g
    simp only [GooglePlayDownload.render]
    exact customShield_render_ok _ (first_pair_ne _ _
      (append_ne_empty_left _ _ (by decide)))

/-- Witness for C7 (amended) at concrete inputs. -/
theorem C7_required_field_checks_witness :
    ∃ e, GitHubDownload.render { owner := "", repo := "jellyfin" } = .error e :=
  C7_required_field_checks.1 { owner := "", repo := "jellyfin" } (Or.inl rfl)

/-- C8: a GitHub download with owner and repo `jellyfin` and no explicit URL
renders a link to `https://github.com/jellyfin/jellyfin/releases` around a
shields.io image embedding the path-escaped owner and repo and the default label
`GitHub`; a non-empty per-spec label overrides the default. -/
theorem C8_github_default_render :
    GitHubDownload.render { owner := "jellyfin", repo := "jellyfin" } =
      .ok (.link
        (.image (.text (NewText "github"))
          "https://img.shields.io/github/downloads/jellyfin/jellyfin/total?logo=github&label=GitHub")
        "https://github.com/jellyfin/jellyfin/releases") ∧
    ∀ l : String, l ≠ "" →
      GitHubDownload.render { owner := "jellyfin", repo := "jellyfin", label := l } =
        .ok (.link
          (.image (.text (NewText "github"))
            ("https://img.shields.io/github/downloads/jellyfin/jellyfin/total?logo=github&label=" ++
              queryEscape l))
          "https://github.com/jellyfin/jellyfin/releases") := by
  constructor
  · rfl
  · intro l hl
    have hpre : preconditions "GitHub" [("Owner", "jellyfin"), ("Repo", "jellyfin")] =
        .ok () := rfl
    simp only [GitHubDownload.render, hpre, ne_eq, hl, not_false_eq_true, if_true]
    rfl

/-- Witness for C8 at the concrete label `MyLabel`. -/
theorem C8_github_default_render_witness :
    GitHubDownload.render { owner := "jellyfin", repo := "jellyfin", label := "MyLabel" } =
      .ok (.link
        (.image (.text (NewText "github"))
          ("https://img.shields.io/github/downloads/jellyfin/jellyfin/total?logo=github&label=" ++
            queryEscape "MyLabel"))
        "https://github.com/jellyfin/jellyfin/releases") :=
  C8_github_default_render.2 "MyLabel" (by decide)

/-- The factory misses exactly on unregistered discriminants. -/
theorem downloadFactory_none_iff (t : String) (fs : List (String × String)) :
    downloadFactory t fs = none ↔ t ∉ registeredKinds := by
  simp only [downloadFactory, registeredKinds, List.mem_cons, List.not_mem_nil]
  split_ifs <;> simp_all

/-- Any member item with an unregistered discriminant makes the decode fail with
an unknown-download-type error. -/
theorem decodeDownloads_error_of_bad (items : List RawDownloadItem)
    (item : RawDownloadItem) (hmem : item ∈ items)
    (hbad : item.typeField.getD "" ∉ registeredKinds) :
    ∃ t, decodeDownloads items = .error ("unknown download type: " ++ t) ∧
      t ∉ registeredKinds := by
  induction items with
  | nil => cases hmem
  | cons hd rest ih =>
    rcases List.mem_cons.mp hmem with h | h
    · subst h
      have hfac : downloadFactory (item.typeField.getD "") item.fields = none :=
        (downloadFactory_none_iff _ _).mpr hbad
      exact ⟨_, by simp [decodeDownloads, hfac], hbad⟩
    · cases hfac : downloadFactory (hd.typeField.getD "") hd.fields with
      | none =>
        exact ⟨hd.typeField.getD "", by simp [decodeDownloads, hfac],
          (downloadFactory_none_iff _ _).mp hfac⟩
      | some d =>
        obtain ⟨t, ht, htk⟩ := ih h
        exact ⟨t, by simp [decodeDownloads, hfac, ht], htk⟩

/-- Every error `decodeDownloads` produces is an unknown-download-type error. -/
theorem decodeDownloads_error_shape : ∀ (items : List RawDownloadItem) (e : String),
    decodeDownloads items = .error e →
    ∃ t, e = "unknown download type: " ++ t ∧ t ∉ registeredKinds := by
  intro items
  induction items with
  | nil => intro e h; simp [decodeDownloads] at h
  | cons hd rest ih =>
    intro e h
    cases hfac : downloadFactory (hd.typeField.getD "") hd.fields with
    | none =>
      simp only [decodeDownloads, hfac, Except.error.injEq] at h
      exact ⟨hd.typeField.getD "", h.symm, (downloadFactory_none_iff _ _).mp hfac⟩
    | some d =>
      cases hrest : decodeDownloads rest with
      | error e2 =>
        simp only [decodeDownloads, hfac, hrest, Except.error.injEq] at h
        obtain ⟨t, ht, htk⟩ := ih e2 hrest
        exact ⟨t, h ▸ ht, htk⟩
      | ok ds =>
        simp [decodeDownloads, hfac, hrest] at h

/-- C6: if any client's download list contains an item whose discriminant is not
one of the ten registered kinds, the run fails during config decoding with an
`unknown download type` error — no document text is produced. -/
theorem C6_unknown_download_type_aborts (raw : RawClientsConfig) (rc : RawClient)
    (item : RawDownloadItem) (hrc : rc ∈ raw.clients) (hitem : item ∈ rc.rawDownloads)
    (hbad : item.typeField.getD "" ∉ registeredKinds) :
    ∃ t, runDownloadsPipeline raw = .error ("unknown download type: " ++ t) ∧
      t ∉ registeredKinds := by
  have main : ∀ rcs : List RawClient, rc ∈ rcs →
      ∃ t, decodeConfigDownloads rcs = .error ("unknown download type: " ++ t) ∧
        t ∉ registeredKinds := by
    intro rcs hmem
    induction rcs with
    | nil => cases hmem
    | cons hd rest ih =>
      rcases List.mem_cons.mp hmem with h | h
      · subst h
        obtain ⟨t, ht, htk⟩ := decodeDownloads_error_of_bad _ _ hitem hbad
        exact ⟨t, by simp [decodeConfigDownloads, ht], htk⟩
      · cases hhd : decodeDownloads hd.rawDownloads with
        | error e =>
          obtain ⟨t, ht, htk⟩ := decodeDownloads_error_shape _ _ hhd
          exact ⟨t, by simp [decodeConfigDownloads, hhd, ht], htk⟩
        | ok ds =>
          obtain ⟨t, ht, htk⟩ := ih h
          exact ⟨t, by simp [decodeConfigDownloads, hhd, ht], htk⟩
  obtain ⟨t, ht, htk⟩ := main raw.clients hrc
  exact ⟨t, by simp [runDownloadsPipeline, ht], htk⟩

/-- Witness for C6 at a concrete configuration with discriminant `zzz`. -/
theorem C6_unknown_download_type_aborts_witness :
    ∃ t, runDownloadsPipeline
        { clients := [{ rawDownloads := [{ typeField := some "zzz", fields := [] }] }] } =
          .error ("unknown download type: " ++ t) ∧
      t ∉ registeredKinds :=
  C6_unknown_download_type_aborts
    { clients := [{ rawDownloads := [{ typeField := some "zzz", fields := [] }] }] }
    { rawDownloads := [{ typeField := some "zzz", fields := [] }] }
    { typeField := some "zzz", fields := [] }
    (by simp) (by simp) (by decide)

/-- C10: whenever `processClientDownloads` produces the Downloads cell, the cell
contains no newline character — every newline is removed before the cell is
placed in the row. -/
theorem C10_downloads_cell_no_newline (client : Client)
    (icons : List (String × HosterIcon)) (s : String)
    (h : processClientDownloads client icons = .ok s) : '\n' ∉ s.data := by
  unfold processClientDownloads at h
  cases haux : processDownloadsAux icons client.downloads "" with
  | error e => rw [haux] at h; cases h
  | ok sb =>
    rw [haux] at h
    have hs : removeNewlines sb = s := by
      cases h
      rfl
    intro hm
    rw [← hs] at hm
    simp [removeNewlines] at hm

/-- Witness for C10 at a one-download client. -/
theorem C10_downloads_cell_no_newline_witness :
    processClientDownloads { downloads := [{ text := "t", url := "u" }] } [] =
        .ok "[t](u)" ∧
      '\n' ∉ ("[t](u)" : String).data :=
  ⟨rfl, C10_downloads_cell_no_newline { downloads := [{ text := "t", url := "u" }] }
    [] "[t](u)" rfl⟩

/-- `addTypeBadge` only ever appends to the incoming badge list. -/
theorem addTypeBadge_append (bs : List String) (k : String) (types : List ClientType)
    (bs' : List String) (h : addTypeBadge bs k types = .ok bs') :
    ∃ ex, bs' = bs ++ ex := by
  unfold addTypeBadge at h
  cases hf : FindType types k with
  | none => rw [hf] at h; cases h
  | some t =>
    rw [hf] at h
    by_cases hb : t.badge = ""
    · simp [hb] at h
      exact ⟨[], by simp [← h]⟩
    · simp [hb] at h
      exact ⟨[t.badge], h.symm⟩

/-- A conditional badge step only ever appends. -/
theorem badgeStep_append (cond : Bool) (bs : List String) (k : String)
    (types : List ClientType) (b2 : List String)
    (h : (if cond then addTypeBadge bs k types else .ok bs) = .ok b2) :
    ∃ ex, b2 = bs ++ ex := by
  cases cond with
  | false =>
    simp at h
    exact ⟨[], by simp [← h]⟩
  | true =>
    simp at h
    exact addTypeBadge_append _ _ _ _ h

/-- The type-tag badge loop only ever appends. -/
theorem addTypeBadges_append (keys : List String) (bs : List String)
    (types : List ClientType) (bs' : List String)
    (h : addTypeBadges bs keys types = .ok bs') :
    ∃ ex, bs' = bs ++ ex := by
  induction keys generalizing bs with
  | nil =>
    unfold addTypeBadges at h
    cases h
    exact ⟨[], by simp⟩
  | cons k rest ih =>
    unfold addTypeBadges at h
    cases ha : addTypeBadge bs k types with
    | error e => rw [ha] at h; cases h
    | ok b1 =>
      rw [ha] at h
      obtain ⟨ex1, hex1⟩ := addTypeBadge_append _ _ _ _ ha
      obtain ⟨ex2, hex2⟩ := ih _ h
      exact ⟨ex1 ++ ex2, by rw [hex2, hex1, List.append_assoc]⟩

/-- For a client whose official flag is true and a registry carrying an
`Official` type with a non-empty badge, the collected badge list starts with
that badge. -/
theorem rowBadges_official (c : Client) (types : List ClientType) (t : ClientType)
    (hoff : c.official = some true)
    (hfind : FindType types OfficialTypeKey = some t)
    (hbadge : t.badge ≠ "") (bs : List String)
    (h : rowBadges c types = .ok bs) :
    ∃ ex, bs = t.badge :: ex := by
  have hstep1 : addTypeBadge [] OfficialTypeKey types = .ok [t.badge] := by
    simp [addTypeBadge, hfind, hbadge]
  unfold rowBadges at h
  rw [hoff, if_pos (show Deref (some true) = true from rfl), hstep1] at h
  split at h
  · exact absurd (by assumption : Except.ok [t.badge] = Except.error _) (by simp)
  · rename_i b1 hb1
    have hb1' : b1 = [t.badge] := by
      cases hb1
      rfl
    subst hb1'
    cases hbeta : Deref c.beta with
    | false =>
      rw [if_neg (by simp [hbeta])] at h
      obtain ⟨ex2, hex2⟩ := addTypeBadges_append c.types [t.badge] types bs h
      exact ⟨ex2, by rw [hex2]; simp⟩
    | true =>
      rw [if_pos hbeta] at h
      cases hb2 : addTypeBadge [t.badge] BetaTypeKey types with
      | error e =>
        rw [hb2] at h
        exact absurd h (by simp)
      | ok b2 =>
        rw [hb2] at h
        obtain ⟨ex1, hex1⟩ := addTypeBadge_append _ _ _ _ hb2
        obtain ⟨ex2, hex2⟩ := addTypeBadges_append c.types b2 types bs h
        exact ⟨ex1 ++ ex2, by rw [hex2, hex1]; simp⟩

/-- `appendBadges` only ever appends characters to the incoming name. -/
theorem appendBadges_data (bs : List String) (n : String) :
    ∃ suffix : List Char, (appendBadges n bs).data = n.data ++ suffix := by
  induction bs generalizing n with
  | nil => exact ⟨[], by simp [appendBadges]⟩
  | cons b rest ih =>
    obtain ⟨suf, hsuf⟩ := ih (n ++ " ` " ++ b ++ " `")
    refine ⟨(" ` " ++ b ++ " `").data ++ suf, ?_⟩
    rw [appendBadges, hsuf]
    simp [String.data_append]

/-- The rendered name cell contains the padded-backtick wrapping of the first
badge right after the client name. -/
theorem appendBadges_cons_mid (b : String) (bs : List String) (n : String) :
    containsSubstring (" ` " ++ b ++ " `") (appendBadges n (b :: bs)) := by
  obtain ⟨suf, hsuf⟩ := appendBadges_data bs (n ++ " ` " ++ b ++ " `")
  refine ⟨n.data, suf, ?_⟩
  rw [appendBadges, hsuf]
  simp [String.data_append]

/-- Substring containment persists under prepending. -/
theorem containsSubstring_left (sub x a : String) (h : containsSubstring sub a) :
    containsSubstring sub (x ++ a) := by
  obtain ⟨pre, post, hst⟩ := h
  exact ⟨x.data ++ pre, post, by rw [String.data_append, hst]; simp [List.append_assoc]⟩

/-- Substring containment persists under appending. -/
theorem containsSubstring_right (sub a y : String) (h : containsSubstring sub a) :
    containsSubstring sub (a ++ y) := by
  obtain ⟨pre, post, hst⟩ := h
  exact ⟨pre, post ++ y.data, by rw [String.data_append, hst]; simp [List.append_assoc]⟩

/-- The first defaulting statement fires for unset official flags with a
Jellyfin-organization open-source URL. -/
theorem clientDefaults_official_some (c : Client) (hoff : c.official = none)
    (hurl : goHasPrefix c.openSourceURL JellyfinOrgURL = true) :
    (clientDefaults c).official = some true := by
  simp only [clientDefaults]
  split_ifs with h1 h2
  · rfl
  · rfl
  all_goals exact absurd (And.intro hoff hurl) (by assumption)

/-- C9 counterexample: the claim quantifies over every configuration, but with a
type registry lacking an `Official` entry the row for an unset-official client
with a Jellyfin-organization open-source URL is not rendered at all — rendering
aborts with a missing-type panic, so no rendered row includes any badge. -/
theorem C9_missing_official_type_fails :
    printClientTableRow
        { name := "c", openSourceURL := "https://github.com/jellyfin/x" } [] [] =
      .error "cannot find type with key: Official" := by
  rfl

/-- C9 (amended): provided the registry carries an `Official` type with a
non-empty badge, every successfully rendered row of a client with unset
official flag and a Jellyfin-organization open-source URL contains that badge,
wrapped in padded backticks, in its Name cell. -/
theorem C9_official_badge_in_row (client : Client)
    (icons : List (String × HosterIcon)) (types : List ClientType)
    (t : ClientType) (c1 : Client) (out : String)
    (hoff : client.official = none)
    (hurl : goHasPrefix client.openSourceURL JellyfinOrgURL = true)
    (hfind : FindType types OfficialTypeKey = some t)
    (hbadge : t.badge ≠ "")
    (hrow : printClientTableRow client icons types = .ok (c1, out)) :
    containsSubstring (" ` " ++ t.badge ++ " `") out := by
  unfold printClientTableRow printClientTableRowCore at hrow
  cases hd : processClientDownloads (clientDefaults client) icons with
  | error e => rw [hd] at hrow; cases hrow
  | ok dm =>
    rw [hd] at hrow
    cases hb : rowBadges (clientDefaults client) types with
    | error e => rw [hb] at hrow; exact absurd hrow (by simp)
    | ok badges =>
      rw [hb] at hrow
      obtain ⟨ex, hex⟩ := rowBadges_official (clientDefaults client) types t
        (clientDefaults_official_some client hoff hurl) hfind hbadge badges hb
      have hout : out = "| [" ++ appendBadges (clientDefaults client).name badges ++
          "](" ++ Select ((clientDefaults client).website != "")
            (clientDefaults client).website (clientDefaults client).openSourceURL ++
          ") | " ++ Select ((clientDefaults client).openSourceURL != "") GoodTrue BadFalse ++
          " | " ++ Select (DerefDef (clientDefaults client).price.free false) GoodTrue BadFalse ++
          " | " ++ Select (DerefDef (clientDefaults client).price.paid false) BadTrue GoodFalse ++
          " | " ++ dm ++ " |" ++ "\n" := by
        have h2 := hrow
        simp only [Except.ok.injEq, Prod.mk.injEq] at h2
        exact h2.2.symm
      rw [hout, hex]
      apply containsSubstring_right
      apply containsSubstring_right
      apply containsSubstring_right
      apply containsSubstring_right
      apply containsSubstring_right
      apply containsSubstring_right
      apply containsSubstring_right
      apply containsSubstring_right
      apply containsSubstring_right
      apply containsSubstring_right
      apply containsSubstring_right
      apply containsSubstring_right
      apply containsSubstring_left
      exact appendBadges_cons_mid t.badge ex (clientDefaults client).name

/-- Witness for C9 (amended) at a concrete client and registry. -/
theorem C9_official_badge_in_row_witness :
    containsSubstring (" ` " ++ "B" ++ " `")
      "| [c ` B `](https://github.com/jellyfin/x) | \u2705 | \u2705 | \u274e |  |\n" :=
  C9_official_badge_in_row
    { name := "c", openSourceURL := "https://github.com/jellyfin/x" } []
    [{ key := "Official", badge := "B" }] { key := "Official", badge := "B" }
    (clientDefaults { name := "c", openSourceURL := "https://github.com/jellyfin/x" })
    "| [c ` B `](https://github.com/jellyfin/x) | \u2705 | \u2705 | \u274e |  |\n"
    rfl rfl rfl (by decide) rfl

/-- C1 counterexample: with clients `Zeta` then `apple` sharing target `x`, the
generated table lists `Zeta`'s row first — bucket insertion order, not
case-insensitive name order; the claim demands the `apple` row first. -/
theorem C1_sorted_order_false :
    createMarkdownDocument cfgC1 =
      .ok ([zetaClient, appleClient],
        "# By Environment\n## G\n\n| Name | OSS | Free | Paid | Downloads |\n| ---- | --- | ---- | ---- | --------- |\n| [Zeta]() | ❌ | ❌ | ❎ |  |\n| [apple]() | ❌ | ❌ | ❎ |  |\n\n") ∧
    "# By Environment\n## G\n\n| Name | OSS | Free | Paid | Downloads |\n| ---- | --- | ---- | ---- | --------- |\n| [Zeta]() | ❌ | ❌ | ❎ |  |\n| [apple]() | ❌ | ❌ | ❎ |  |\n\n" ≠
    "# By Environment\n## G\n\n| Name | OSS | Free | Paid | Downloads |\n| ---- | --- | ---- | ---- | --------- |\n| [apple]() | ❌ | ❌ | ❎ |  |\n| [Zeta]() | ❌ | ❌ | ❎ |  |\n\n" :=
  ⟨rfl, by decide⟩

/-- C1 (amended): the rows of an identifier's table appear in the bucket's
insertion order — the order the clients carry in the configuration — with no
sorting; two clients sharing a target render first-listed first, whatever their
names. -/
theorem C1_rows_follow_config_order (c1 c2 : Client)
    (icons : List (String × HosterIcon)) (types : List ClientType) (key : String)
    (c1x c2x : Client) (o1 o2 : String)
    (ht1 : c1.targets = [key]) (ht2 : c2.targets = [key])
    (hn1 : goTrimSpace (goToLower key) = key)
    (hn2 : goToLower (goTrimSpace key) = key)
    (hr1 : printClientTableRow c1 icons types = .ok (c1x, o1))
    (hr2 : printClientTableRow c2 icons types = .ok (c2x, o2)) :
    printClientTable key (createIdentifierClientMap [c1, c2]) icons types [c1, c2] =
      .ok ([c1x, c2x], tableHeader ++ (o1 ++ (o2 ++ ""))) := by
  have hmap : createIdentifierClientMap [c1, c2] (goToLower (goTrimSpace key)) = [0, 1] := by
    rw [hn2]
    simp [createIdentifierClientMap, createIdentifierClientMapFrom,
      matchingTargetCount, ht1, ht2, hn1]
  have hs0 : storeGet [c1, c2] 0 = c1 := rfl
  have hs1 : storeGet [c1x, c2] 1 = c2 := rfl
  have hset0 : List.set [c1, c2] 0 c1x = [c1x, c2] := rfl
  have hset1 : List.set [c1x, c2] 1 c2x = [c1x, c2x] := rfl
  have hrows : renderRows icons types [0, 1] [c1, c2] =
      .ok ([c1x, c2x], o1 ++ (o2 ++ "")) := by
    simp only [renderRows, hs0, hr1, hset0, hs1, hr2, hset1]
  unfold printClientTable
  rw [hmap, hrows]

/-- Witness for C1 (amended): `Zeta` listed before `apple` renders first. -/
theorem C1_rows_follow_config_order_witness :
    printClientTable "x" (createIdentifierClientMap [zetaClient, appleClient]) [] []
        [zetaClient, appleClient] =
      .ok ([zetaClient, appleClient], tableHeader ++
        ("| [Zeta]() | ❌ | ❌ | ❎ |  |\n" ++ ("| [apple]() | ❌ | ❌ | ❎ |  |\n" ++ ""))) :=
  C1_rows_follow_config_order zetaClient appleClient [] [] "x" zetaClient appleClient
    "| [Zeta]() | ❌ | ❌ | ❎ |  |\n" "| [apple]() | ❌ | ❌ | ❎ |  |\n"
    rfl rfl rfl rfl rfl rfl

/-- C3 counterexample: generating the document writes the defaulted Official and
Price.Free flags back into the configuration's client — the stored client list
after `createMarkdownDocument` differs from the loaded one. -/
theorem C3_generation_mutates_config :
    Except.map Prod.fst (createMarkdownDocument cfgC3) =
      .ok [{ name := "c", targets := ["x"], official := some true, openSourceURL := "https://github.com/jellyfin/x", price := { free := some true } }] ∧
    Except.map Prod.fst (createMarkdownDocument cfgC3) ≠ .ok cfgC3.clients := by
  refine ⟨rfl, fun hcontra => ?_⟩
  have hpos : Except.map Prod.fst (createMarkdownDocument cfgC3) =
      .ok [{ name := "c", targets := ["x"], official := some true, openSourceURL := "https://github.com/jellyfin/x", price := { free := some true } }] := rfl
  rw [hpos] at hcontra
  simp [cfgC3] at hcontra

/-- C5 counterexample: the legend bullet renders as `* Music: ` M `` —
display name, colon, padded-code badge — not as the claimed bolded
`* **Music** ` M ``; (moreover with an empty `types` list no legend is emitted
at all, against the claim's "for every configuration"). -/
theorem C5_legend_format_false :
    createMarkdownDocument cfgC5 =
        .ok ([], "# By Environment\n\n---\n\n* Music: ` M `\n") ∧
      "# By Environment\n\n---\n\n* Music: ` M `\n" ≠
        "# By Environment\n\n---\n\n* **Music** ` M `\n" :=
  ⟨rfl, by decide⟩

/-- C5 (amended): whenever the configuration's type list is non-empty, the
document ends with a divider followed by the legend — one bullet
`* <display-or-key>: ` <badge> `` per type with a non-empty badge, in config
order — regardless of any section flags; with an empty type list no legend is
emitted. -/
theorem C5_legend_at_end (config : ClientsConfig) (S : List Client) (out : String)
    (hne : config.types ≠ []) (h : createMarkdownDocument config = .ok (S, out)) :
    ∃ p : String, out = p ++ ("\n---\n\n" ++ renderLegend config.types) := by
  have hie : config.types.isEmpty = false := by
    cases hcfg : config.types with
    | nil => exact absurd hcfg hne
    | cons a l => rfl
  simp only [createMarkdownDocument] at h
  cases hg : renderTargetGroups (createIdentifierClientMap config.clients) config.icons
      config.types config.targets config.clients with
  | error e => simp [hg] at h
  | ok p1 =>
    obtain ⟨s1, envOut⟩ := p1
    simp only [hg, hie, Bool.false_eq_true, if_false] at h
    cases ht : renderTypeSections config.icons config.types
        (List.range config.clients.length) config.types true s1 with
    | error e => simp [ht] at h
    | ok p2 =>
      obtain ⟨s2, typeOut⟩ := p2
      simp only [ht, Except.ok.injEq, Prod.mk.injEq] at h
      exact ⟨"# By Environment\n" ++ envOut ++ typeOut,
        by rw [← h.2]; simp [String.append_assoc]⟩

/-- Witness for C5 (amended) at the one-type configuration. -/
theorem C5_legend_at_end_witness :
    ∃ p : String, "# By Environment\n\n---\n\n* Music: ` M `\n" =
      p ++ ("\n---\n\n" ++ renderLegend cfgC5.types) :=
  C5_legend_at_end cfgC5 [] "# By Environment\n\n---\n\n* Music: ` M `\n"
    (by decide) rfl

/-- Defaulting is idempotent. -/
theorem clientDefaults_idem (c : Client) :
    clientDefaults (clientDefaults c) = clientDefaults c := by
  simp only [clientDefaults]
  split_ifs <;> simp_all

/-- Defaulting preserves the name. -/
theorem clientDefaults_name (c : Client) : (clientDefaults c).name = c.name := by
  simp only [clientDefaults]; split_ifs <;> rfl

/-- Defaulting preserves the targets. -/
theorem clientDefaults_targets (c : Client) : (clientDefaults c).targets = c.targets := by
  simp only [clientDefaults]; split_ifs <;> rfl

/-- Defaulting preserves the beta flag. -/
theorem clientDefaults_beta (c : Client) : (clientDefaults c).beta = c.beta := by
  simp only [clientDefaults]; split_ifs <;> rfl

/-- Defaulting preserves the website. -/
theorem clientDefaults_website (c : Client) : (clientDefaults c).website = c.website := by
  simp only [clientDefaults]; split_ifs <;> rfl

/-- Defaulting preserves the open-source URL. -/
theorem clientDefaults_oss (c : Client) :
    (clientDefaults c).openSourceURL = c.openSourceURL := by
  simp only [clientDefaults]; split_ifs <;> rfl

/-- Defaulting preserves the paid flag. -/
theorem clientDefaults_paid (c : Client) :
    (clientDefaults c).price.paid = c.price.paid := by
  simp only [clientDefaults]; split_ifs <;> rfl

/-- Defaulting preserves the downloads. -/
theorem clientDefaults_downloads (c : Client) :
    (clientDefaults c).downloads = c.downloads := by
  simp only [clientDefaults]; split_ifs <;> rfl

/-- Defaulting preserves the type tags. -/
theorem clientDefaults_types (c : Client) : (clientDefaults c).types = c.types := by
  simp only [clientDefaults]; split_ifs <;> rfl

/-- Evolved clients share their defaulted form. -/
theorem clientDefaults_of_evolves (a b : Client) (h : clientEvolves a b) :
    clientDefaults b = clientDefaults a := by
  rcases h with h | h
  · rw [h]
  · rw [h, clientDefaults_idem]

/-- Evolved clients share their targets. -/
theorem clientEvolves_targets (a b : Client) (h : clientEvolves a b) :
    b.targets = a.targets := by
  rcases h with h | h
  · rw [h]
  · rw [h, clientDefaults_targets]

/-- Evolved clients share their type tags. -/
theorem clientEvolves_types (a b : Client) (h : clientEvolves a b) :
    b.types = a.types := by
  rcases h with h | h
  · rw [h]
  · rw [h, clientDefaults_types]

/-- Evolution is reflexive. -/
theorem clientEvolves_refl (a : Client) : clientEvolves a a := Or.inl rfl

/-- Evolution is transitive (it has at most one proper step). -/
theorem clientEvolves_trans (a b c : Client) (h1 : clientEvolves a b)
    (h2 : clientEvolves b c) : clientEvolves a c := by
  rcases h2 with h2 | h2
  · rw [h2]; exact h1
  · right
    rw [h2, clientDefaults_of_evolves a b h1]

/-- Store evolution is reflexive. -/
theorem StoreInv_refl (A : List Client) : StoreInv A A := by
  induction A with
  | nil => trivial
  | cons a as ih => exact ⟨clientEvolves_refl a, ih⟩

/-- Evolved stores have equal length. -/
theorem StoreInv_length (A B : List Client) (h : StoreInv A B) :
    A.length = B.length := by
  induction A generalizing B with
  | nil => cases B with
    | nil => rfl
    | cons b bs => cases h
  | cons a as ih =>
    cases B with
    | nil => cases h
    | cons b bs => simpa using ih bs h.2

/-- Store evolution is transitive. -/
theorem StoreInv_trans (A B C : List Client) (h1 : StoreInv A B)
    (h2 : StoreInv B C) : StoreInv A C := by
  induction A generalizing B C with
  | nil =>
    cases B with
    | nil => cases C with
      | nil => trivial
      | cons c cs => cases h2
    | cons b bs => cases h1
  | cons a as ih =>
    cases B with
    | nil => cases h1
    | cons b bs =>
      cases C with
      | nil => cases h2
      | cons c cs =>
        exact ⟨clientEvolves_trans a b c h1.1 h2.1, ih bs cs h1.2 h2.2⟩

/-- Pointwise reads of evolved stores are evolved clients. -/
theorem StoreInv_storeGet (A B : List Client) (h : StoreInv A B) (i : Nat) :
    clientEvolves (storeGet A i) (storeGet B i) := by
  induction A generalizing B i with
  | nil =>
    cases B with
    | nil => exact clientEvolves_refl _
    | cons b bs => cases h
  | cons a as ih =>
    cases B with
    | nil => cases h
    | cons b bs =>
      cases i with
      | zero => exact h.1
      | succ n => exact ih bs h.2 n

/-- Setting the same client keeps stores evolved. -/
theorem StoreInv_set (A B : List Client) (h : StoreInv A B) (i : Nat) (c : Client) :
    StoreInv (A.set i c) (B.set i c) := by
  induction A generalizing B i with
  | nil =>
    cases B with
    | nil => trivial
    | cons b bs => cases h
  | cons a as ih =>
    cases B with
    | nil => cases h
    | cons b bs =>
      cases i with
      | zero => exact ⟨clientEvolves_refl c, h.2⟩
      | succ n => exact ⟨h.1, ih bs h.2 n⟩

/-- Defaulting one stored client is a store evolution step. -/
theorem StoreInv_set_defaults (A : List Client) (i : Nat) :
    StoreInv A (A.set i (clientDefaults (storeGet A i))) := by
  induction A generalizing i with
  | nil => trivial
  | cons a as ih =>
    cases i with
    | zero => exact ⟨Or.inr rfl, StoreInv_refl as⟩
    | succ n =>
      refine ⟨clientEvolves_refl a, ?_⟩
      have := ih n
      simpa [storeGet] using this

/-- `printClientTableRowCore` hands back exactly the client it read. -/
theorem printClientTableRowCore_client (c : Client)
    (icons : List (String × HosterIcon)) (types : List ClientType)
    (c' : Client) (o : String)
    (h : printClientTableRowCore c icons types = .ok (c', o)) : c' = c := by
  unfold printClientTableRowCore at h
  cases hd : processClientDownloads c icons with
  | error e => rw [hd] at h; cases h
  | ok dm =>
    rw [hd] at h
    cases hb : rowBadges c types with
    | error e => rw [hb] at h; exact absurd h (by simp)
    | ok badges =>
      rw [hb] at h
      simp only [Except.ok.injEq, Prod.mk.injEq] at h
      exact h.1.symm

/-- The client written back by a successful row render is the defaulted one. -/
theorem printClientTableRow_ok_defaults (c : Client)
    (icons : List (String × HosterIcon)) (types : List ClientType)
    (c' : Client) (o : String)
    (h : printClientTableRow c icons types = .ok (c', o)) :
    c' = clientDefaults c :=
  printClientTableRowCore_client (clientDefaults c) icons types c' o h

/-- Row rendering only depends on the defaulted client, so it is invariant
across evolution. -/
theorem printClientTableRow_congr (a b : Client)
    (icons : List (String × HosterIcon)) (types : List ClientType)
    (h : clientEvolves a b) :
    printClientTableRow b icons types = printClientTableRow a icons types := by
  unfold printClientTableRow
  rw [clientDefaults_of_evolves a b h]

/-- Bucket construction only reads targets, which evolution preserves. -/
theorem createIdentifierClientMapFrom_congr (A B : List Client) (h : StoreInv A B)
    (i : Nat) (key : String) :
    createIdentifierClientMapFrom B i key = createIdentifierClientMapFrom A i key := by
  induction A generalizing B i with
  | nil =>
    cases B with
    | nil => rfl
    | cons b bs => cases h
  | cons a as ih =>
    cases B with
    | nil => cases h
    | cons b bs =>
      have hm : matchingTargetCount b key = matchingTargetCount a key := by
        unfold matchingTargetCount
        rw [clientEvolves_targets a b h.1]
      unfold createIdentifierClientMapFrom
      rw [ih bs h.2, hm]

/-- The identifier map of an evolved store equals the original map. -/
theorem createIdentifierClientMap_congr (A B : List Client) (h : StoreInv A B) :
    createIdentifierClientMap B = createIdentifierClientMap A := by
  funext key
  exact createIdentifierClientMapFrom_congr A B h 0 key

/-- Type membership only reads type tags, which evolution preserves. -/
theorem belongsToType_congr (a b : Client) (key : String) (h : clientEvolves a b) :
    belongsToType b key = belongsToType a key := by
  unfold belongsToType
  rw [clientEvolves_types a b h]

/-- Rendering rows only applies the defaulting mutation to the store. -/
theorem renderRows_evol (icons : List (String × HosterIcon))
    (types : List ClientType) (idxs : List Nat) :
    ∀ (A A' : List Client) (o : String),
    renderRows icons types idxs A = .ok (A', o) → StoreInv A A' := by
  induction idxs with
  | nil =>
    intro A A' o h
    simp only [renderRows, Except.ok.injEq, Prod.mk.injEq] at h
    rw [← h.1]
    exact StoreInv_refl A
  | cons i rest ih =>
    intro A A' o h
    cases hr : printClientTableRow (storeGet A i) icons types with
    | error e => simp only [renderRows, hr] at h; exact Except.noConfusion h
    | ok p =>
      obtain ⟨c, row⟩ := p
      simp only [renderRows, hr] at h
      cases hrec : renderRows icons types rest (A.set i c) with
      | error e => simp only [hrec] at h; exact Except.noConfusion h
      | ok q =>
        obtain ⟨s, out⟩ := q
        simp only [hrec, Except.ok.injEq, Prod.mk.injEq] at h
        have hc : c = clientDefaults (storeGet A i) :=
          printClientTableRow_ok_defaults _ _ _ _ _ hr
        have h1 : StoreInv A (A.set i c) := by
          rw [hc]; exact StoreInv_set_defaults A i
        have h2 := ih (A.set i c) s out hrec
        rw [← h.1]
        exact StoreInv_trans _ _ _ h1 h2

/-- Rendering rows over an evolved store succeeds with the same text. -/
theorem renderRows_sim (icons : List (String × HosterIcon))
    (types : List ClientType) (idxs : List Nat) :
    ∀ (A B A' : List Client) (o : String), StoreInv A B →
    renderRows icons types idxs A = .ok (A', o) →
    ∃ B', renderRows icons types idxs B = .ok (B', o) ∧ StoreInv A' B' := by
  induction idxs with
  | nil =>
    intro A B A' o hinv h
    simp only [renderRows, Except.ok.injEq, Prod.mk.injEq] at h
    exact ⟨B, by simp [renderRows, h.2], by rw [← h.1]; exact hinv⟩
  | cons i rest ih =>
    intro A B A' o hinv h
    cases hr : printClientTableRow (storeGet A i) icons types with
    | error e => simp only [renderRows, hr] at h; exact Except.noConfusion h
    | ok p =>
      obtain ⟨c, row⟩ := p
      simp only [renderRows, hr] at h
      cases hrec : renderRows icons types rest (A.set i c) with
      | error e => simp only [hrec] at h; exact Except.noConfusion h
      | ok q =>
        obtain ⟨s, out⟩ := q
        simp only [hrec, Except.ok.injEq, Prod.mk.injEq] at h
        have hrB : printClientTableRow (storeGet B i) icons types = .ok (c, row) := by
          rw [printClientTableRow_congr (storeGet A i) (storeGet B i) icons types
            (StoreInv_storeGet A B hinv i)]
          exact hr
        obtain ⟨B', hB', hinv'⟩ := ih (A.set i c) (B.set i c) s out
          (StoreInv_set A B hinv i c) hrec
        refine ⟨B', ?_, by rw [← h.1]; exact hinv'⟩
        simp only [renderRows, hrB, hB', ← h.2]

/-- A client table only applies the defaulting mutation to the store. -/
theorem printClientTable_evol (has : String) (idMap : String → List Nat)
    (icons : List (String × HosterIcon)) (types : List ClientType)
    (A A' : List Client) (o : String)
    (h : printClientTable has idMap icons types A = .ok (A', o)) : StoreInv A A' := by
  unfold printClientTable at h
  cases hr : renderRows icons types (idMap (goToLower (goTrimSpace has))) A with
  | error e => rw [hr] at h; cases h
  | ok p =>
    obtain ⟨s, rows⟩ := p
    simp only [hr, Except.ok.injEq, Prod.mk.injEq] at h
    rw [← h.1]
    exact renderRows_evol _ _ _ _ _ _ hr

/-- The per-group identifier loop only applies the defaulting mutation. -/
theorem renderHasList_evol (idMap : String → List Nat)
    (icons : List (String × HosterIcon)) (types : List ClientType) (hm : Bool)
    (ts : List Target) :
    ∀ (A A' : List Client) (o : String),
    renderHasList idMap icons types hm ts A = .ok (A', o) → StoreInv A A' := by
  induction ts with
  | nil =>
    intro A A' o h
    simp only [renderHasList, Except.ok.injEq, Prod.mk.injEq] at h
    rw [← h.1]
    exact StoreInv_refl A
  | cons meta rest ih =>
    intro A A' o h
    cases h1 : printClientTable meta.name idMap icons types A with
    | error e => simp only [renderHasList, h1] at h; exact Except.noConfusion h
    | ok p =>
      obtain ⟨s1, tbl⟩ := p
      simp only [renderHasList, h1] at h
      cases h2 : renderHasList idMap icons types hm rest s1 with
      | error e => simp only [h2] at h; exact Except.noConfusion h
      | ok q =>
        obtain ⟨s2, out⟩ := q
        simp only [h2, Except.ok.injEq, Prod.mk.injEq] at h
        rw [← h.1]
        exact StoreInv_trans _ _ _ (printClientTable_evol _ _ _ _ _ _ _ h1) (ih _ _ _ h2)

/-- The target-group loop only applies the defaulting mutation. -/
theorem renderTargetGroups_evol (idMap : String → List Nat)
    (icons : List (String × HosterIcon)) (types : List ClientType)
    (gs : List TargetGroup) :
    ∀ (A A' : List Client) (o : String),
    renderTargetGroups idMap icons types gs A = .ok (A', o) → StoreInv A A' := by
  induction gs with
  | nil =>
    intro A A' o h
    simp only [renderTargetGroups, Except.ok.injEq, Prod.mk.injEq] at h
    rw [← h.1]
    exact StoreInv_refl A
  | cons g rest ih =>
    intro A A' o h
    cases h1 : renderHasList idMap icons types (decide (1 < g.has.length)) g.has A with
    | error e => simp only [renderTargetGroups, h1] at h; exact Except.noConfusion h
    | ok p =>
      obtain ⟨s1, groupOut⟩ := p
      simp only [renderTargetGroups, h1] at h
      cases h2 : renderTargetGroups idMap icons types rest s1 with
      | error e => simp only [h2] at h; exact Except.noConfusion h
      | ok q =>
        obtain ⟨s2, out⟩ := q
        simp only [h2, Except.ok.injEq, Prod.mk.injEq] at h
        rw [← h.1]
        exact StoreInv_trans _ _ _ (renderHasList_evol _ _ _ _ _ _ _ _ h1) (ih _ _ _ h2)

/-- The per-type client loop only applies the defaulting mutation. -/
theorem renderTypeClients_evol (icons : List (String × HosterIcon))
    (types : List ClientType) (ct : ClientType) (idxs : List Nat) :
    ∀ (pth : Bool) (A A' : List Client) (o : String),
    renderTypeClients icons types ct idxs pth A = .ok (A', o) → StoreInv A A' := by
  induction idxs with
  | nil =>
    intro pth A A' o h
    simp only [renderTypeClients, Except.ok.injEq, Prod.mk.injEq] at h
    rw [← h.1]
    exact StoreInv_refl A
  | cons i rest ih =>
    intro pth A A' o h
    cases hbel : belongsToType (storeGet A i) ct.key with
    | true =>
      cases hr : printClientTableRow (storeGet A i) icons types with
      | error e =>
        simp only [renderTypeClients, hbel, eq_self_iff_true, if_true, hr] at h
        exact Except.noConfusion h
      | ok p =>
        obtain ⟨c1, row⟩ := p
        simp only [renderTypeClients, hbel, eq_self_iff_true, if_true, hr] at h
        cases hrec : renderTypeClients icons types ct rest false (A.set i c1) with
        | error e => simp only [hrec] at h; exact Except.noConfusion h
        | ok q =>
          obtain ⟨s, out⟩ := q
          simp only [hrec, Except.ok.injEq, Prod.mk.injEq] at h
          have hc : c1 = clientDefaults (storeGet A i) :=
            printClientTableRow_ok_defaults _ _ _ _ _ hr
          have h1 : StoreInv A (A.set i c1) := by
            rw [hc]; exact StoreInv_set_defaults A i
          rw [← h.1]
          exact StoreInv_trans _ _ _ h1 (ih _ _ _ _ hrec)
    | false =>
      simp only [renderTypeClients, hbel, Bool.false_eq_true, if_false] at h
      exact ih _ _ _ _ h

/-- The section-type loop only applies the defaulting mutation. -/
theorem renderTypeSections_evol (icons : List (String × HosterIcon))
    (types : List ClientType) (idxs : List Nat) (cts : List ClientType) :
    ∀ (ph : Bool) (A A' : List Client) (o : String),
    renderTypeSections icons types idxs cts ph A = .ok (A', o) → StoreInv A A' := by
  induction cts with
  | nil =>
    intro ph A A' o h
    simp only [renderTypeSections, Except.ok.injEq, Prod.mk.injEq] at h
    rw [← h.1]
    exact StoreInv_refl A
  | cons ct rest ih =>
    intro ph A A' o h
    cases hsec : ct.isSection with
    | true =>
      cases h1 : renderTypeClients icons types ct idxs true A with
      | error e =>
        simp only [renderTypeSections, hsec, eq_self_iff_true, if_true, h1] at h
        exact Except.noConfusion h
      | ok p =>
        obtain ⟨s1, clientsOut⟩ := p
        simp only [renderTypeSections, hsec, eq_self_iff_true, if_true, h1] at h
        cases h2 : renderTypeSections icons types idxs rest false s1 with
        | error e => simp only [h2] at h; exact Except.noConfusion h
        | ok q =>
          obtain ⟨s2, out⟩ := q
          simp only [h2, Except.ok.injEq, Prod.mk.injEq] at h
          rw [← h.1]
          exact StoreInv_trans _ _ _ (renderTypeClients_evol _ _ _ _ _ _ _ _ h1)
            (ih _ _ _ _ h2)
    | false =>
      simp only [renderTypeSections, hsec, Bool.false_eq_true, if_false] at h
      exact ih _ _ _ _ h

/-- Document generation only applies the defaulting mutation to the stored
clients. -/
theorem createMarkdownDocument_evol (config : ClientsConfig) (S : List Client)
    (out : String) (h : createMarkdownDocument config = .ok (S, out)) :
    StoreInv config.clients S := by
  simp only [createMarkdownDocument] at h
  cases hg : renderTargetGroups (createIdentifierClientMap config.clients) config.icons
      config.types config.targets config.clients with
  | error e => simp only [hg] at h; exact Except.noConfusion h
  | ok p1 =>
    obtain ⟨s1, envOut⟩ := p1
    simp only [hg] at h
    cases hie : config.types.isEmpty with
    | true =>
      simp only [hie, eq_self_iff_true, if_true, Except.ok.injEq, Prod.mk.injEq] at h
      rw [← h.1]
      exact renderTargetGroups_evol _ _ _ _ _ _ _ hg
    | false =>
      simp only [hie, Bool.false_eq_true, if_false] at h
      cases ht : renderTypeSections config.icons config.types
          (List.range config.clients.length) config.types true s1 with
      | error e => simp only [ht] at h; exact Except.noConfusion h
      | ok p2 =>
        obtain ⟨s2, typeOut⟩ := p2
        simp only [ht, Except.ok.injEq, Prod.mk.injEq] at h
        rw [← h.1]
        exact StoreInv_trans _ _ _ (renderTargetGroups_evol _ _ _ _ _ _ _ hg)
          (renderTypeSections_evol _ _ _ _ _ _ _ _ ht)

/-- A client table over an evolved store produces the same text. -/
theorem printClientTable_sim (has : String) (idMap : String → List Nat)
    (icons : List (String × HosterIcon)) (types : List ClientType)
    (A B A' : List Client) (o : String) (hinv : StoreInv A B)
    (h : printClientTable has idMap icons types A = .ok (A', o)) :
    ∃ B', printClientTable has idMap icons types B = .ok (B', o) ∧ StoreInv A' B' := by
  unfold printClientTable at h ⊢
  cases hr : renderRows icons types (idMap (goToLower (goTrimSpace has))) A with
  | error e => simp only [hr] at h; exact Except.noConfusion h
  | ok p =>
    obtain ⟨s, rows⟩ := p
    simp only [hr, Except.ok.injEq, Prod.mk.injEq] at h
    obtain ⟨B', hB', hinv'⟩ := renderRows_sim icons types _ A B s rows hinv hr
    refine ⟨B', ?_, by rw [← h.1]; exact hinv'⟩
    simp only [hB', ← h.2]

/-- The per-group identifier loop over an evolved store produces the same text. -/
theorem renderHasList_sim (idMap : String → List Nat)
    (icons : List (String × HosterIcon)) (types : List ClientType) (hm : Bool)
    (ts : List Target) :
    ∀ (A B A' : List Client) (o : String), StoreInv A B →
    renderHasList idMap icons types hm ts A = .ok (A', o) →
    ∃ B', renderHasList idMap icons types hm ts B = .ok (B', o) ∧ StoreInv A' B' := by
  induction ts with
  | nil =>
    intro A B A' o hinv h
    simp only [renderHasList, Except.ok.injEq, Prod.mk.injEq] at h
    exact ⟨B, by simp [renderHasList, h.2], by rw [← h.1]; exact hinv⟩
  | cons meta rest ih =>
    intro A B A' o hinv h
    cases h1 : printClientTable meta.name idMap icons types A with
    | error e => simp only [renderHasList, h1] at h; exact Except.noConfusion h
    | ok p =>
      obtain ⟨s1, tbl⟩ := p
      simp only [renderHasList, h1] at h
      cases h2 : renderHasList idMap icons types hm rest s1 with
      | error e => simp only [h2] at h; exact Except.noConfusion h
      | ok q =>
        obtain ⟨s2, out⟩ := q
        simp only [h2, Except.ok.injEq, Prod.mk.injEq] at h
        obtain ⟨B1, hB1, hinv1⟩ := printClientTable_sim _ _ _ _ A B s1 tbl hinv h1
        obtain ⟨B2, hB2, hinv2⟩ := ih s1 B1 s2 out hinv1 h2
        refine ⟨B2, ?_, by rw [← h.1]; exact hinv2⟩
        simp only [renderHasList, hB1, hB2, ← h.2]

/-- The target-group loop over an evolved store produces the same text. -/
theorem renderTargetGroups_sim (idMap : String → List Nat)
    (icons : List (String × HosterIcon)) (types : List ClientType)
    (gs : List TargetGroup) :
    ∀ (A B A' : List Client) (o : String), StoreInv A B →
    renderTargetGroups idMap icons types gs A = .ok (A', o) →
    ∃ B', renderTargetGroups idMap icons types gs B = .ok (B', o) ∧ StoreInv A' B' := by
  induction gs with
  | nil =>
    intro A B A' o hinv h
    simp only [renderTargetGroups, Except.ok.injEq, Prod.mk.injEq] at h
    exact ⟨B, by simp [renderTargetGroups, h.2], by rw [← h.1]; exact hinv⟩
  | cons g rest ih =>
    intro A B A' o hinv h
    cases h1 : renderHasList idMap icons types (decide (1 < g.has.length)) g.has A with
    | error e => simp only [renderTargetGroups, h1] at h; exact Except.noConfusion h
    | ok p =>
      obtain ⟨s1, groupOut⟩ := p
      simp only [renderTargetGroups, h1] at h
      cases h2 : renderTargetGroups idMap icons types rest s1 with
      | error e => simp only [h2] at h; exact Except.noConfusion h
      | ok q =>
        obtain ⟨s2, out⟩ := q
        simp only [h2, Except.ok.injEq, Prod.mk.injEq] at h
        obtain ⟨B1, hB1, hinv1⟩ := renderHasList_sim _ _ _ _ _ A B s1 groupOut hinv h1
        obtain ⟨B2, hB2, hinv2⟩ := ih s1 B1 s2 out hinv1 h2
        refine ⟨B2, ?_, by rw [← h.1]; exact hinv2⟩
        simp only [renderTargetGroups, hB1, hB2, ← h.2]

/-- The per-type client loop over an evolved store produces the same text. -/
theorem renderTypeClients_sim (icons : List (String × HosterIcon))
    (types : List ClientType) (ct : ClientType) (idxs : List Nat) :
    ∀ (pth : Bool) (A B A' : List Client) (o : String), StoreInv A B →
    renderTypeClients icons types ct idxs pth A = .ok (A', o) →
    ∃ B', renderTypeClients icons types ct idxs pth B = .ok (B', o) ∧ StoreInv A' B' := by
  induction idxs with
  | nil =>
    intro pth A B A' o hinv h
    simp only [renderTypeClients, Except.ok.injEq, Prod.mk.injEq] at h
    exact ⟨B, by simp [renderTypeClients, h.2], by rw [← h.1]; exact hinv⟩
  | cons i rest ih =>
    intro pth A B A' o hinv h
    have hbelEq : belongsToType (storeGet B i) ct.key =
        belongsToType (storeGet A i) ct.key :=
      belongsToType_congr _ _ _ (StoreInv_storeGet A B hinv i)
    cases hbel : belongsToType (storeGet A i) ct.key with
    | true =>
      cases hr : printClientTableRow (storeGet A i) icons types with
      | error e =>
        simp only [renderTypeClients, hbel, eq_self_iff_true, if_true, hr] at h
        exact Except.noConfusion h
      | ok p =>
        obtain ⟨c1, row⟩ := p
        simp only [renderTypeClients, hbel, eq_self_iff_true, if_true, hr] at h
        cases hrec : renderTypeClients icons types ct rest false (A.set i c1) with
        | error e => simp only [hrec] at h; exact Except.noConfusion h
        | ok q =>
          obtain ⟨s, out⟩ := q
          simp only [hrec, Except.ok.injEq, Prod.mk.injEq] at h
          have hrB : printClientTableRow (storeGet B i) icons types = .ok (c1, row) := by
            rw [printClientTableRow_congr (storeGet A i) (storeGet B i) icons types
              (StoreInv_storeGet A B hinv i)]
            exact hr
          obtain ⟨B', hB', hinv'⟩ := ih false (A.set i c1) (B.set i c1) s out
            (StoreInv_set A B hinv i c1) hrec
          refine ⟨B', ?_, by rw [← h.1]; exact hinv'⟩
          rw [hbel] at hbelEq
          simp only [renderTypeClients, hbelEq, eq_self_iff_true, if_true, hrB, hB',
            ← h.2]
    | false =>
      simp only [renderTypeClients, hbel, Bool.false_eq_true, if_false] at h
      obtain ⟨B', hB', hinv'⟩ := ih pth A B A' o hinv h
      refine ⟨B', ?_, hinv'⟩
      rw [hbel] at hbelEq
      simp only [renderTypeClients, hbelEq, Bool.false_eq_true, if_false, hB']

/-- The section-type loop over an evolved store produces the same text. -/
theorem renderTypeSections_sim (icons : List (String × HosterIcon))
    (types : List ClientType) (idxs : List Nat) (cts : List ClientType) :
    ∀ (ph : Bool) (A B A' : List Client) (o : String), StoreInv A B →
    renderTypeSections icons types idxs cts ph A = .ok (A', o) →
    ∃ B', renderTypeSections icons types idxs cts ph B = .ok (B', o) ∧
      StoreInv A' B' := by
  induction cts with
  | nil =>
    intro ph A B A' o hinv h
    simp only [renderTypeSections, Except.ok.injEq, Prod.mk.injEq] at h
    exact ⟨B, by simp [renderTypeSections, h.2], by rw [← h.1]; exact hinv⟩
  | cons ct rest ih =>
    intro ph A B A' o hinv h
    cases hsec : ct.isSection with
    | true =>
      cases h1 : renderTypeClients icons types ct idxs true A with
      | error e =>
        simp only [renderTypeSections, hsec, eq_self_iff_true, if_true, h1] at h
        exact Except.noConfusion h
      | ok p =>
        obtain ⟨s1, clientsOut⟩ := p
        simp only [renderTypeSections, hsec, eq_self_iff_true, if_true, h1] at h
        cases h2 : renderTypeSections icons types idxs rest false s1 with
        | error e => simp only [h2] at h; exact Except.noConfusion h
        | ok q =>
          obtain ⟨s2, out⟩ := q
          simp only [h2, Except.ok.injEq, Prod.mk.injEq] at h
          obtain ⟨B1, hB1, hinv1⟩ := renderTypeClients_sim _ _ _ _ true A B s1
            clientsOut hinv h1
          obtain ⟨B2, hB2, hinv2⟩ := ih false s1 B1 s2 out hinv1 h2
          refine ⟨B2, ?_, by rw [← h.1]; exact hinv2⟩
          simp only [renderTypeSections, hsec, eq_self_iff_true, if_true, hB1, hB2,
            ← h.2]
    | false =>
      simp only [renderTypeSections, hsec, Bool.false_eq_true, if_false] at h
      obtain ⟨B', hB', hinv'⟩ := ih ph A B A' o hinv h
      refine ⟨B', ?_, hinv'⟩
      simp only [renderTypeSections, hsec, Bool.false_eq_true, if_false, hB']

/-- C4: document generation is deterministic (it is a pure function of the
configuration) and idempotent over the state the first run leaves behind:
re-running `createMarkdownDocument` on the mutated client store produced by a
successful run yields byte-for-byte the same Markdown text. -/
theorem C4_second_run_same_text (config : ClientsConfig) (S : List Client)
    (out : String) (h : createMarkdownDocument config = .ok (S, out)) :
    ∃ S2, createMarkdownDocument { config with clients := S } = .ok (S2, out) := by
  have hinv0 : StoreInv config.clients S := createMarkdownDocument_evol config S out h
  have hlen : config.clients.length = S.length := StoreInv_length _ _ hinv0
  have hmap : createIdentifierClientMap S = createIdentifierClientMap config.clients :=
    createIdentifierClientMap_congr config.clients S hinv0
  simp only [createMarkdownDocument] at h ⊢
  rw [hmap, ← hlen]
  cases hg : renderTargetGroups (createIdentifierClientMap config.clients) config.icons
      config.types config.targets config.clients with
  | error e => simp only [hg] at h; exact Except.noConfusion h
  | ok p1 =>
    obtain ⟨s1, envOut⟩ := p1
    simp only [hg] at h
    obtain ⟨B1, hB1, hinv1⟩ := renderTargetGroups_sim _ _ _ _ config.clients S s1
      envOut hinv0 hg
    simp only [hB1]
    cases hie : config.types.isEmpty with
    | true =>
      simp only [hie, eq_self_iff_true, if_true, Except.ok.injEq, Prod.mk.injEq] at h ⊢
      exact ⟨B1, rfl, h.2⟩
    | false =>
      simp only [hie, Bool.false_eq_true, if_false] at h ⊢
      cases ht : renderTypeSections config.icons config.types
          (List.range config.clients.length) config.types true s1 with
      | error e => simp only [ht] at h; exact Except.noConfusion h
      | ok p2 =>
        obtain ⟨s2, typeOut⟩ := p2
        simp only [ht, Except.ok.injEq, Prod.mk.injEq] at h
        obtain ⟨B2, hB2, hinv2⟩ := renderTypeSections_sim _ _ _ _ true s1 B1 s2
          typeOut hinv1 ht
        simp only [hB2]
        exact ⟨B2, by rw [← h.2]⟩

/-- Witness for C4 at a concrete configuration whose first run mutates the
store. -/
theorem C4_second_run_same_text_witness :
    ∃ S2, createMarkdownDocument { cfgC3 with clients := [mutatedC3] } =
      .ok (S2, docC3) :=
  C4_second_run_same_text cfgC3 [mutatedC3] docC3 rfl

/-- C3 (amended): a successful generation leaves every stored client either
unchanged or replaced by its defaulted form, and defaulting can only change the
`official` and `price.free` flags — every other field of every client survives
generation untouched; the Markdown text is the only other effect. -/
theorem C3_only_default_flags_change (config : ClientsConfig) (S : List Client)
    (out : String) (h : createMarkdownDocument config = .ok (S, out)) :
    StoreInv config.clients S ∧
    ∀ c : Client, (clientDefaults c).name = c.name ∧
      (clientDefaults c).targets = c.targets ∧
      (clientDefaults c).beta = c.beta ∧
      (clientDefaults c).website = c.website ∧
      (clientDefaults c).openSourceURL = c.openSourceURL ∧
      (clientDefaults c).price.paid = c.price.paid ∧
      (clientDefaults c).downloads = c.downloads ∧
      (clientDefaults c).types = c.types :=
  ⟨createMarkdownDocument_evol config S out h,
   fun c => ⟨clientDefaults_name c, clientDefaults_targets c, clientDefaults_beta c,
     clientDefaults_website c, clientDefaults_oss c, clientDefaults_paid c,
     clientDefaults_downloads c, clientDefaults_types c⟩⟩

/-- Witness for C3 (amended) at the concrete mutating configuration. -/
theorem C3_only_default_flags_change_witness :
    StoreInv cfgC3.clients [mutatedC3] ∧
    ∀ c : Client, (clientDefaults c).name = c.name ∧
      (clientDefaults c).targets = c.targets ∧
      (clientDefaults c).beta = c.beta ∧
      (clientDefaults c).website = c.website ∧
      (clientDefaults c).openSourceURL = c.openSourceURL ∧
      (clientDefaults c).price.paid = c.price.paid ∧
      (clientDefaults c).downloads = c.downloads ∧
      (clientDefaults c).types = c.types :=
  C3_only_default_flags_change cfgC3 [mutatedC3] docC3 rfl
